import Mathlib

/-!
# User-level copy-on-write fork (`lib/fork.c`)

A shallow embedding of `pgfault`, `duppage`, `fork` and `sfork` from
`lib/fork.c`, together with a small model of the kernel primitives they call.

* Page-table entries are natural numbers, tested with the same masks as the C
  code (`uvpt[pn] & PTE_W`, ...).
* The kernel primitives (`sys_page_alloc`, `sys_page_map`, ...) are not part of
  `lib/fork.c`; they are modelled from section 6 of the specification.  Whether a
  call succeeds is decided by a script of answers carried in the machine
  state, so every theorem quantified over the machine state is quantified over
  every pattern of kernel successes and failures.
* `panic` aborts the process: code that panics yields `Outcome.panic` and
  everything after the panic is not executed.
-/

namespace Jos

/-! ## Constants of `inc/mmu.h`, `inc/env.h`, `inc/error.h` -/

/-- Bytes mapped by a page (`inc/mmu.h`). -/
def PGSIZE : Nat := 4096

/-- Page table entries per page table (`inc/mmu.h`). -/
def NPTENTRIES : Nat := 1024

/-- Present bit of a page table entry (`inc/mmu.h`). -/
def PTE_P : Nat := 0x001

/-- Writeable bit of a page table entry (`inc/mmu.h`). -/
def PTE_W : Nat := 0x002

/-- User bit of a page table entry (`inc/mmu.h`). -/
def PTE_U : Nat := 0x004

/-- PTE_COW marks copy-on-write page table entries (`lib/fork.c`, line 8). -/
def PTE_COW : Nat := 0x800

/-- Offset in page: `#define PGOFF(la) (((uintptr_t) (la)) & 0xFFF)`. -/
def PGOFF (la : Nat) : Nat := la &&& 0xFFF

/-- Page number field of an address: `#define PGNUM(la) (((uintptr_t) (la)) >> PTXSHIFT)`. -/
def PGNUM (la : Nat) : Nat := la >>> 12

/-- Page directory index: `#define PDX(la) ((((uintptr_t) (la)) >> PDXSHIFT) & 0x3FF)`. -/
def PDX (la : Nat) : Nat := (la >>> 22) &&& 0x3FF

/-- Round down to the nearest multiple of n (`inc/types.h`). -/
def ROUNDDOWN (a n : Nat) : Nat := a - a % n

/-- Error code "invalid parameter" (`inc/error.h`). -/
def E_INVAL : Int := 3

/-- Environment status values (`inc/env.h`). -/
def ENV_RUNNABLE : Nat := 2

/-- Status of an environment that exists but may not be scheduled (`inc/env.h`). -/
def ENV_NOT_RUNNABLE : Nat := 4

/-- Addresses of `inc/memlayout.h` used by `lib/fork.c`.  The header is not part
of the sources, so the three addresses are parameters of the development. -/
structure Layout where
  /-- Top of user-accessible virtual memory. -/
  UTOP : Nat
  /-- Top of the one-page user exception stack. -/
  UXSTACKTOP : Nat
  /-- Scratch address used by the page-fault handler. -/
  PFTEMP : Nat
  deriving DecidableEq, Repr

/-- The values `inc/memlayout.h` gives on x86 JOS. -/
def josLayout : Layout :=
  { UTOP := 0xeec00000, UXSTACKTOP := 0xeec00000, PFTEMP := 0x7ff000 }

/-- Constraints on a layout: `UTOP` is a 32-bit address on a page-table boundary
and the scratch address is page-aligned. -/
def Layout.WF (L : Layout) : Prop :=
  L.UTOP < 2 ^ 32 ∧ L.UTOP % (PGSIZE * NPTENTRIES) = 0 ∧ L.PFTEMP % PGSIZE = 0

/-! ## Machine state -/

/-- Function update at one point. -/
def setAt {α β : Type} [DecidableEq α] (f : α → β) (a : α) (b : β) : α → β :=
  fun x => if x = a then b else f x

/-- One environment (process) as seen through the read-only mirrors `uvpd` and
`uvpt` and the fields of `struct Env` that `fork` touches. -/
structure Env where
  /-- Page directory entries (`uvpd[i]`). -/
  env_pgdir : Nat → Nat
  /-- Page table entries indexed by virtual page number (`uvpt[pn]`). -/
  env_pgtbl : Nat → Nat
  /-- Page fault upcall entry point. -/
  env_pgfault_upcall : Nat
  /-- Status of the environment. -/
  env_status : Nat

/-- Kernel calls issued by the library. -/
inductive Call where
  | page_alloc (envid : Int) (va : Nat) (perm : Nat)
  | page_map (srcenv : Int) (srcva : Nat) (dstenv : Int) (dstva : Nat) (perm : Nat)
  | env_set_pgfault_upcall (envid : Int) (upcall : Nat)
  | env_set_status (envid : Int) (status : Nat)
  | exofork
  deriving DecidableEq, Repr

/-- The whole machine: all environments, physical memory by frame number, the
running environment, the frame allocator, the kernel's upcoming answers and the
log of kernel calls made so far (oldest first, each with its result). -/
structure Machine where
  envs : Int → Env
  mem : Nat → Nat → Nat
  curenv : Int
  nextFrame : Nat
  /-- The answer the kernel gives to its k-th call, for every k. -/
  script : Nat → Int
  /-- Number of kernel calls answered so far. -/
  ncalls : Nat
  log : List (Call × Int)
  /-- The library global `thisenv` of each process, as the id of the record it points to. -/
  thisenv : Int → Int
  /-- Whether the library's page-fault handler is registered in each process. -/
  handler : Int → Bool

/-- The answer the kernel gives to the next call. -/
def Machine.next (s : Machine) : Int := s.script s.ncalls

/-- Diagnostics of the `panic` calls in `lib/fork.c`. -/
inductive Panic where
  | pgfault_not_writable
  | pgfault_page_alloc (r : Int)
  | pgfault_page_map (r : Int)
  | exofork (r : Int)
  | duppage (r : Int)
  | set_pgfault_upcall (r : Int)
  | page_alloc (r : Int)
  | set_status (r : Int)
  | sfork_not_implemented
  deriving DecidableEq, Repr

/-- Result of running library code: a normal return with a value, or a panic
that aborted the process; both carry the machine state reached. -/
inductive Outcome (α : Type) where
  | ret (v : α) (s : Machine)
  | panic (p : Panic) (s : Machine)

/-- The returned value, if the code returned. -/
def Outcome.val {α : Type} : Outcome α → Option α
  | .ret v _ => some v
  | .panic _ _ => none

/-- The diagnostic, if the code panicked. -/
def Outcome.diag {α : Type} : Outcome α → Option Panic
  | .ret _ _ => none
  | .panic p _ => some p

/-- The machine state reached. -/
def Outcome.state {α : Type} : Outcome α → Machine
  | .ret _ s => s
  | .panic _ s => s

/-- The read-only mirror of the running environment's page directory. -/
def uvpd (s : Machine) (i : Nat) : Nat := (s.envs s.curenv).env_pgdir i

/-- The read-only mirror of the running environment's page tables. -/
def uvpt (s : Machine) (pn : Nat) : Nat := (s.envs s.curenv).env_pgtbl pn

/-! ## Kernel primitives -/

/-- Modelled from the spec: the entry the kernel writes when it maps a frame with
a permission (the kernel sources are absent); frame number in the high bits,
the twelve permission bits below. -/
def mkPte (frame perm : Nat) : Nat := frame * PGSIZE + perm % PGSIZE

/-- Modelled from the spec: writing one entry of an environment's two-level
mapping (the kernel sources are absent).  The page table is created, i.e. the
directory entry becomes present, if it was not. -/
def install (envs : Int → Env) (envid : Int) (pn : Nat) (pte : Nat) : Int → Env :=
  let e := envs envid
  let i := pn / NPTENTRIES
  setAt envs envid
    { e with
      env_pgtbl := setAt e.env_pgtbl pn pte
      env_pgdir := if e.env_pgdir i &&& PTE_P ≠ 0 then e.env_pgdir
                   else setAt e.env_pgdir i (PTE_P ||| PTE_W ||| PTE_U) }

/-- Modelled from the spec: the kernel answers a call with the next answer of
its script and the call is recorded with that result (the kernel sources are
absent). -/
def logCall (c : Call) (s : Machine) : Machine :=
  { s with ncalls := s.ncalls + 1, log := s.log ++ [(c, s.next)] }

/-- Modelled from the spec: get-self-id() returns the caller's own process
identity (`sys_getenvid`, the kernel sources are absent). -/
def sys_getenvid (s : Machine) : Int := s.curenv

/-- Modelled from the spec: allocate-physical-page(process, virtual-address,
permission) maps a freshly allocated frame (`sys_page_alloc`, the kernel sources
are absent).  Result 0 is success; on any other result nothing is mapped. -/
def sys_page_alloc (envid : Int) (va perm : Nat) (s : Machine) : Int × Machine :=
  (s.next,
    if s.next = 0 then
      { logCall (.page_alloc envid va perm) s with
        envs := install s.envs envid (PGNUM va) (mkPte s.nextFrame perm)
        nextFrame := s.nextFrame + 1 }
    else logCall (.page_alloc envid va perm) s)

/-- Modelled from the spec: map-page(source-process, source-address,
target-process, target-address, permission) shares one frame across address
spaces with the specified permission (`sys_page_map`, the kernel sources are
absent).  Result 0 is success; on any other result nothing is mapped. -/
def sys_page_map (srcenv : Int) (srcva : Nat) (dstenv : Int) (dstva : Nat) (perm : Nat)
    (s : Machine) : Int × Machine :=
  (s.next,
    if s.next = 0 then
      { logCall (.page_map srcenv srcva dstenv dstva perm) s with
        envs := install s.envs dstenv (PGNUM dstva)
                  (mkPte (PGNUM ((s.envs srcenv).env_pgtbl (PGNUM srcva))) perm) }
    else logCall (.page_map srcenv srcva dstenv dstva perm) s)

/-- Modelled from the spec: set-fault-upcall(process, entry-point) installs the
fault-handler dispatch target (`sys_env_set_pgfault_upcall`, the kernel sources
are absent). -/
def sys_env_set_pgfault_upcall (envid : Int) (upcall : Nat) (s : Machine) : Int × Machine :=
  (s.next,
    if s.next = 0 then
      { logCall (.env_set_pgfault_upcall envid upcall) s with
        envs := setAt s.envs envid { s.envs envid with env_pgfault_upcall := upcall } }
    else logCall (.env_set_pgfault_upcall envid upcall) s)

/-- Modelled from the spec: set-status(process, runnable|not-runnable) controls
scheduler eligibility (`sys_env_set_status`, the kernel sources are absent). -/
def sys_env_set_status (envid : Int) (status : Nat) (s : Machine) : Int × Machine :=
  (s.next,
    if s.next = 0 then
      { logCall (.env_set_status envid status) s with
        envs := setAt s.envs envid { s.envs envid with env_status := status } }
    else logCall (.env_set_status envid status) s)

/-- The environment a successful create-process call hands out: nothing mapped,
no upcall, not runnable. -/
def emptyEnv : Env :=
  { env_pgdir := fun _ => 0, env_pgtbl := fun _ => 0,
    env_pgfault_upcall := 0, env_status := ENV_NOT_RUNNABLE }

/-- Modelled from the spec: create-process() returns a handle to a new,
non-runnable process with an otherwise empty address space (`sys_exofork`, the
kernel sources are absent).  A positive answer is the handle given to the
parent, 0 is what the new process itself sees, a negative answer is a failure. -/
def sys_exofork (s : Machine) : Int × Machine :=
  (s.next,
    if 0 < s.next then
      { logCall .exofork s with envs := setAt s.envs s.next emptyEnv }
    else logCall .exofork s)

/-- Modelled from the spec: registering the fault handler for the current
process (`set_pgfault_handler` of `lib/pgfault.c`, which is absent). -/
def set_pgfault_handler (s : Machine) : Machine :=
  { s with handler := setAt s.handler s.curenv true }

/-- Frame number behind a virtual address of the running environment. -/
def frameAt (s : Machine) (va : Nat) : Nat := PGNUM (uvpt s (PGNUM va))

/-- Byte read by the running environment at a virtual address. -/
def readByte (s : Machine) (va : Nat) : Nat := s.mem (frameAt s va) (PGOFF va)

/-- Modelled from the spec: copying n bytes inside the running environment's
address space (`memmove` of `lib/string.c`, which is absent), for a destination
range that stays inside one page, as it does for the page-aligned scratch page. -/
def memmove (dst src n : Nat) (s : Machine) : Machine :=
  { s with
    mem := fun f off =>
      if f = frameAt s dst ∧ PGOFF dst ≤ off ∧ off < PGOFF dst + n then
        readByte s (src + (off - PGOFF dst))
      else s.mem f off }

/-! ## `lib/fork.c` -/

/-- The fault record passed to the handler. -/
structure UTrapframe where
  utf_fault_va : Nat
  utf_err : Nat
  deriving DecidableEq, Repr

/-- The custom page fault handler (`lib/fork.c`, lines 14-42). -/
def pgfault (L : Layout) (utf : UTrapframe) (s : Machine) : Outcome Unit :=
  let addr := utf.utf_fault_va
  let err := utf.utf_err
  if ¬ (err &&& 2 ≠ 0 ∧ uvpt s (addr / PGSIZE) &&& PTE_COW ≠ 0) then
    .panic .pgfault_not_writable s
  else
    let (r, s1) := sys_page_alloc (sys_getenvid s) L.PFTEMP (PTE_W ||| PTE_P ||| PTE_U) s
    if r ≠ 0 then .panic (.pgfault_page_alloc r) s1
    else
      let s2 := memmove L.PFTEMP (ROUNDDOWN utf.utf_fault_va PGSIZE) PGSIZE s1
      let (r, s3) := sys_page_map (sys_getenvid s2) L.PFTEMP (sys_getenvid s2)
        (ROUNDDOWN utf.utf_fault_va PGSIZE) (PTE_W ||| PTE_P ||| PTE_U) s2
      if r ≠ 0 then .panic (.pgfault_page_map r) s3
      else .ret () s3

/-- The permission `duppage` installs for an entry (`lib/fork.c`, line 62). -/
def dupFlags (pte : Nat) : Nat :=
  if pte &&& PTE_W ≠ 0 ∨ pte &&& PTE_COW ≠ 0 then PTE_P ||| PTE_COW ||| PTE_U else PGOFF pte

/-- Map our virtual page pn into the target envid at the same virtual address
(`lib/fork.c`, lines 55-69).  Returns the status and the machine reached. -/
def duppage (envid : Int) (pn : Nat) (s : Machine) : Int × Machine :=
  let va := (pn * PGSIZE) % 2 ^ 32
  let flags := dupFlags (uvpt s pn)
  let (r, s1) := sys_page_map (sys_getenvid s) va envid va flags s
  if r ≠ 0 then (r, s1)
  else
    let (r, s2) := sys_page_map (sys_getenvid s1) va (sys_getenvid s1) va flags s1
    if r ≠ 0 then (r, s2)
    else (0, s2)

/-- A C loop `for (k = lo; k < lo + count; k++) body(k)`, left as soon as the
body panics. -/
def forLoop (body : Nat → Machine → Outcome Unit) : Nat → Nat → Machine → Outcome Unit
  | _, 0, s => .ret () s
  | lo, count + 1, s =>
    match body lo s with
    | .ret _ s1 => forLoop body (lo + 1) count s1
    | .panic p s1 => .panic p s1

/-- Body of the inner loop of `fork` (`lib/fork.c`, lines 104-109). -/
def forkPage (L : Layout) (cpid : Int) (i j : Nat) (s : Machine) : Outcome Unit :=
  let pn := i * NPTENTRIES + j
  if uvpt s pn &&& (PTE_P ||| PTE_U) ≠ 0 ∧ pn ≠ PGNUM (L.UXSTACKTOP - PGSIZE) then
    let (r, s1) := duppage cpid pn s
    if r ≠ 0 then .panic (.duppage r) s1 else .ret () s1
  else .ret () s

/-- Body of the outer loop of `fork` (`lib/fork.c`, lines 102-110). -/
def forkTable (L : Layout) (cpid : Int) (i : Nat) (s : Machine) : Outcome Unit :=
  if uvpd s i &&& PTE_P ≠ 0 then forLoop (forkPage L cpid i) 0 NPTENTRIES s
  else .ret () s

/-- The address-space walk of `fork` (`lib/fork.c`, lines 100-110). -/
def forkWalk (L : Layout) (cpid : Int) (s : Machine) : Outcome Unit :=
  forLoop (forkTable L cpid) 0 (PDX L.UTOP) s

/-- What `fork` does in the parent after the walk (`lib/fork.c`, lines 111-116). -/
def forkFinish (L : Layout) (cpid : Int) (s : Machine) : Outcome Int :=
  let (r, s1) := sys_env_set_pgfault_upcall cpid
    (s.envs (s.thisenv s.curenv)).env_pgfault_upcall s
  if r ≠ 0 then .panic (.set_pgfault_upcall r) s1
  else
    let (r, s2) := sys_page_alloc cpid (L.UXSTACKTOP - PGSIZE) (PTE_U ||| PTE_P ||| PTE_W) s1
    if r ≠ 0 then .panic (.page_alloc r) s2
    else
      let (r, s3) := sys_env_set_status cpid ENV_RUNNABLE s2
      if r ≠ 0 then .panic (.set_status r) s3
      else .ret cpid s3

/-- User-level fork with copy-on-write (`lib/fork.c`, lines 87-121). -/
def fork (L : Layout) (s : Machine) : Outcome Int :=
  let s0 := set_pgfault_handler s
  let (cpid, s1) := sys_exofork s0
  if cpid = -1 then .panic (.exofork cpid) s1
  else if cpid ≠ 0 then
    match forkWalk L cpid s1 with
    | .panic p s2 => .panic p s2
    | .ret _ s2 => forkFinish L cpid s2
  else
    .ret cpid { s1 with thisenv := setAt s1.thisenv (sys_getenvid s1) (sys_getenvid s1) }

/-- The shared-memory fork (`lib/fork.c`, lines 124-129): the panic comes
first, so the `return -E_INVAL` after it is never reached. -/
def sfork (s : Machine) : Outcome Int :=
  .panic .sfork_not_implemented s

/-! ## Vocabulary of the statements -/

/-- The entry `duppage` installs, in the target and in the caller, for a caller
entry e: the same frame under `dupFlags e`. -/
def dupPte (e : Nat) : Nat := mkPte (PGNUM e) (dupFlags e)

/-- Page number of the user exception stack, `PGNUM(UXSTACKTOP - PGSIZE)`. -/
def xstackPage (L : Layout) : Nat := PGNUM (L.UXSTACKTOP - PGSIZE)

/-- The test the walk of `fork` applies to page pn of the running environment:
its page table exists, one of the bits `PTE_P`, `PTE_U` is set in its entry, and it is
not the exception stack page. -/
def walkTest (L : Layout) (s : Machine) (pn : Nat) : Prop :=
  uvpd s (pn / NPTENTRIES) &&& PTE_P ≠ 0 ∧ uvpt s pn &&& (PTE_P ||| PTE_U) ≠ 0 ∧
  pn ≠ PGNUM (L.UXSTACKTOP - PGSIZE)

instance (L : Layout) (s : Machine) (pn : Nat) : Decidable (walkTest L s pn) := by
  unfold walkTest; infer_instance

/-- The calls an execution made: what it appended to the log of kernel calls. -/
def issued {α : Type} (s : Machine) (o : Outcome α) : List (Call × Int) :=
  o.state.log.drop s.log.length

/-- Whether a kernel call is a set-status call. -/
def Call.isSetStatus : Call → Bool
  | .env_set_status _ _ => true
  | _ => false

/-- Whether a kernel call is a page-map call. -/
def Call.isPageMap : Call → Bool
  | .page_map _ _ _ _ _ => true
  | _ => false

/-- State of the walk of `fork` after it has dealt with all pages below m: s0 is
the state the walk started in, s the state reached, cpid the target.  Pages that
passed the test of the walk carry the duplicated entry in both environments,
everything else is as it was. -/
structure WalkInv (L : Layout) (cpid : Int) (s0 s : Machine) (m : Nat) : Prop where
  curenv : s.curenv = s0.curenv
  mem : s.mem = s0.mem
  nextFrame : s.nextFrame = s0.nextFrame
  script : s.script = s0.script
  thisenv : s.thisenv = s0.thisenv
  handler : s.handler = s0.handler
  upcall : ∀ e, (s.envs e).env_pgfault_upcall = (s0.envs e).env_pgfault_upcall
  status : ∀ e, (s.envs e).env_status = (s0.envs e).env_status
  others : ∀ e, e ≠ s0.curenv → e ≠ cpid → s.envs e = s0.envs e
  pgdir : (s.envs s0.curenv).env_pgdir = (s0.envs s0.curenv).env_pgdir
  parent : ∀ pn, (s.envs s0.curenv).env_pgtbl pn =
    if pn < m ∧ walkTest L s0 pn then dupPte (uvpt s0 pn) else uvpt s0 pn
  child : ∀ pn, (s.envs cpid).env_pgtbl pn =
    if pn < m ∧ walkTest L s0 pn then dupPte (uvpt s0 pn) else (s0.envs cpid).env_pgtbl pn
  childDir : ∀ pn, pn < m → walkTest L s0 pn →
    (s.envs cpid).env_pgdir (pn / NPTENTRIES) &&& PTE_P ≠ 0

/-- What a `fork` that returned cpid to the parent has made of the machine s:
s1 is the state reached. -/
structure ForkPost (L : Layout) (s : Machine) (cpid : Int) (s1 : Machine) : Prop where
  curenv : s1.curenv = s.curenv
  mem : s1.mem = s.mem
  nextFrame : s1.nextFrame = s.nextFrame + 1
  script : s1.script = s.script
  others : ∀ e, e ≠ s.curenv → e ≠ cpid → s1.envs e = s.envs e
  parentDir : (s1.envs s.curenv).env_pgdir = (s.envs s.curenv).env_pgdir
  parent : ∀ pn, (s1.envs s.curenv).env_pgtbl pn =
    if pn < PDX L.UTOP * NPTENTRIES ∧ walkTest L s pn then dupPte (uvpt s pn) else uvpt s pn
  child : ∀ pn, (s1.envs cpid).env_pgtbl pn =
    if pn = xstackPage L then mkPte s.nextFrame (PTE_U ||| PTE_P ||| PTE_W)
    else if pn < PDX L.UTOP * NPTENTRIES ∧ walkTest L s pn then dupPte (uvpt s pn) else 0
  childDir : ∀ pn, pn = xstackPage L ∨ (pn < PDX L.UTOP * NPTENTRIES ∧ walkTest L s pn) →
    (s1.envs cpid).env_pgdir (pn / NPTENTRIES) &&& PTE_P ≠ 0
  childStatus : (s1.envs cpid).env_status = ENV_RUNNABLE

/-- Relation between the state s the walk of `fork` (or a part of it) starts in
and a state s1 it reaches: the same environment runs, and the calls made in
between are page-map calls of that environment that keep the address, for pages
other than the exception stack page; when `ok` holds, all were answered 0. -/
def WalkLog (L : Layout) (ok : Prop) (s s1 : Machine) : Prop :=
  s1.curenv = s.curenv ∧
  ∃ w, s1.log = s.log ++ w ∧
    (∀ x ∈ w, ∃ va dst perm, x.1 = Call.page_map s.curenv va dst va perm ∧
      PGNUM va ≠ xstackPage L) ∧
    (ok → ∀ x ∈ w, x.2 = 0)

/-- The calls `fork` makes after the walk, given the kernel's three answers: it
stops at the first answer that is not 0. -/
def finishCalls (L : Layout) (cpid : Int) (upcall : Nat) (r1 r2 r3 : Int) : List (Call × Int) :=
  if r1 ≠ 0 then [(Call.env_set_pgfault_upcall cpid upcall, r1)]
  else if r2 ≠ 0 then
    [(Call.env_set_pgfault_upcall cpid upcall, 0),
     (Call.page_alloc cpid (L.UXSTACKTOP - PGSIZE) (PTE_U ||| PTE_P ||| PTE_W), r2)]
  else
    [(Call.env_set_pgfault_upcall cpid upcall, 0),
     (Call.page_alloc cpid (L.UXSTACKTOP - PGSIZE) (PTE_U ||| PTE_P ||| PTE_W), 0),
     (Call.env_set_status cpid ENV_RUNNABLE, r3)]

/-- Frame allocator invariant: the frames behind the entries of every environment
have been handed out already, so the next frame to allocate is fresh. -/
def Machine.WF (s : Machine) : Prop :=
  ∀ e pn, PGNUM ((s.envs e).env_pgtbl pn) < s.nextFrame

/-- Modelled from the spec: the scheduler (an external collaborator) lets the
environment envid run. -/
def runAs (envid : Int) (s : Machine) : Machine := { s with curenv := envid }

/-- Modelled from the spec: a store of one byte by the running environment that
the page tables let through (the hardware is not part of the sources). -/
def pokeByte (va v : Nat) (s : Machine) : Machine :=
  { s with
    mem := fun f off => if f = frameAt s va ∧ off = PGOFF va then v else s.mem f off }

/-- The contents of page pn as the environment envid sees them. -/
def pageOf (s : Machine) (envid : Int) (pn : Nat) : Nat → Nat :=
  s.mem (PGNUM ((s.envs envid).env_pgtbl pn))

/-! ## Concrete machines -/

/-- A small process image under the JOS layout: a read-only text page at
0x800000 (frame 7), a writable data page at 0x801000 (frame 5), the exception
stack page (frame 6). -/
def demoEnv : Env :=
  { env_pgdir := fun i => if i = 2 ∨ i = 954 then 7 else 0
    env_pgtbl := fun pn =>
      if pn = 2048 then 7 * 4096 + 5
      else if pn = 2049 then 5 * 4096 + 7
      else if pn = 977919 then 6 * 4096 + 7
      else 0
    env_pgfault_upcall := 0x800100
    env_status := 3 }

/-- The image of `demoEnv` plus a present supervisor-only page at 0x802000
(frame 4, `PTE_P` without `PTE_U`). -/
def supervisorEnv : Env :=
  { demoEnv with
    env_pgtbl := fun pn => if pn = 2050 then 4 * 4096 + 1 else demoEnv.env_pgtbl pn }

/-- The image of `demoEnv` plus a writable page at the scratch address `PFTEMP`
(frame 4), as an earlier copy-on-write fault leaves it. -/
def scratchEnv : Env :=
  { demoEnv with
    env_pgdir := fun i => if i = 1 then 7 else demoEnv.env_pgdir i
    env_pgtbl := fun pn => if pn = 2047 then 4 * 4096 + 7 else demoEnv.env_pgtbl pn }

/-- The image of `demoEnv` with the data page marked copy-on-write. -/
def cowEnv : Env :=
  { demoEnv with
    env_pgtbl := fun pn => if pn = 2049 then 5 * 4096 + 0x805 else demoEnv.env_pgtbl pn }

/-- A machine running environment 0x1000 with the given image and kernel script;
frames 4 to 7 hold the bytes 66, 65, 83, 84, frames from 8 on are free. -/
def machineOf (e : Env) (script : Nat → Int) : Machine :=
  { envs := fun id => if id = 4096 then e else emptyEnv
    mem := fun f _ => if f = 4 then 66 else if f = 5 then 65 else if f = 6 then 83
      else if f = 7 then 84 else 0
    curenv := 4096
    nextFrame := 8
    script := script
    ncalls := 0
    log := []
    thisenv := fun id => id
    handler := fun _ => false }

/-- The kernel hands out environment 0x1001 and accepts every later call. -/
def scriptOk : Nat → Int := fun k => if k = 0 then 4097 else 0

/-- The kernel has no free environment (-E_NO_FREE_ENV) and rejects calls that
name the bad environment id (-E_BAD_ENV). -/
def scriptNoFreeEnv : Nat → Int := fun k => if k = 0 then -5 else -2

/-- The kernel hands out environment 0x1001, accepts the four page-map calls for
the text and data pages and rejects the fifth call (-E_INVAL). -/
def scriptRejectFifth : Nat → Int :=
  fun k => if k = 0 then 4097 else if k = 5 then -3 else 0

/-- The kernel is out of memory (-E_NO_MEM) at its first call. -/
def scriptNoMem : Nat → Int := fun k => if k = 0 then -4 else 0

/-- The child's handler serving a fault at va with error code err, the child
having been scheduled right after `fork` returned in the parent. -/
def childFault (L : Layout) (s : Machine) (cpid : Int) (va err : Nat) : Outcome Unit :=
  pgfault L ⟨va, err⟩ (runAs cpid (fork L s).state)

/-- The parent's handler serving a fault at va with error code err right after
`fork` returned. -/
def parentFault (L : Layout) (s : Machine) (va err : Nat) : Outcome Unit :=
  pgfault L ⟨va, err⟩ (fork L s).state

/-! # Theorems -/

/-! ## Arithmetic of page table entries -/

theorem PGOFF_eq_mod (x : Nat) : PGOFF x = x % 4096 :=
  Nat.and_pow_two_sub_one_eq_mod x 12

theorem PGNUM_eq_div (x : Nat) : PGNUM x = x / 4096 :=
  Nat.shiftRight_eq_div_pow x 12

theorem PGNUM_mkPte (f p : Nat) : PGNUM (mkPte f p) = f := by
  rw [PGNUM_eq_div]; unfold mkPte PGSIZE; omega

theorem PGOFF_mkPte (f p : Nat) : PGOFF (mkPte f p) = p % 4096 := by
  rw [PGOFF_eq_mod]; unfold mkPte PGSIZE; omega

theorem PGOFF_lt (x : Nat) : PGOFF x < 4096 := by
  rw [PGOFF_eq_mod]; omega

theorem dupFlags_lt (e : Nat) : dupFlags e < 4096 := by
  unfold dupFlags
  split
  · decide
  · exact PGOFF_lt e

theorem PGNUM_page_va (pn : Nat) (h : pn < NPTENTRIES * NPTENTRIES) :
    PGNUM ((pn * PGSIZE) % 2 ^ 32) = pn := by
  rw [PGNUM_eq_div]; unfold NPTENTRIES at h; unfold PGSIZE; omega

theorem setAt_same {α β : Type} [DecidableEq α] (f : α → β) (a : α) (b : β) :
    setAt f a b a = b := by simp [setAt]

theorem setAt_other {α β : Type} [DecidableEq α] (f : α → β) (a x : α) (b : β) (h : x ≠ a) :
    setAt f a b x = f x := by simp [setAt, h]

theorem install_pgtbl_same (envs : Int → Env) (envid : Int) (pn pte : Nat) :
    (install envs envid pn pte envid).env_pgtbl pn = pte := by
  simp [install, setAt]

theorem install_pgtbl (envs : Int → Env) (envid e : Int) (pn q pte : Nat) :
    (install envs envid pn pte e).env_pgtbl q =
      if e = envid ∧ q = pn then pte else (envs e).env_pgtbl q := by
  unfold install setAt
  by_cases he : e = envid
  · subst he; by_cases hq : q = pn <;> simp [hq]
  · simp [he]

/-! ## What one kernel call changes -/

section kernel
variable (a b : Int) (av bv perm : Nat) (s : Machine)

@[simp] theorem sys_page_map_fst : (sys_page_map a av b bv perm s).1 = s.next := rfl

@[simp] theorem sys_page_map_mem : (sys_page_map a av b bv perm s).2.mem = s.mem := by
  unfold sys_page_map; split <;> rfl

@[simp] theorem sys_page_map_curenv : (sys_page_map a av b bv perm s).2.curenv = s.curenv := by
  unfold sys_page_map; split <;> rfl

@[simp] theorem sys_page_map_nextFrame :
    (sys_page_map a av b bv perm s).2.nextFrame = s.nextFrame := by
  unfold sys_page_map; split <;> rfl

@[simp] theorem sys_page_map_script : (sys_page_map a av b bv perm s).2.script = s.script := by
  unfold sys_page_map; split <;> rfl

@[simp] theorem sys_page_map_ncalls :
    (sys_page_map a av b bv perm s).2.ncalls = s.ncalls + 1 := by
  unfold sys_page_map; split <;> rfl

@[simp] theorem sys_page_map_thisenv :
    (sys_page_map a av b bv perm s).2.thisenv = s.thisenv := by
  unfold sys_page_map; split <;> rfl

@[simp] theorem sys_page_map_handler :
    (sys_page_map a av b bv perm s).2.handler = s.handler := by
  unfold sys_page_map; split <;> rfl

@[simp] theorem sys_page_map_log :
    (sys_page_map a av b bv perm s).2.log = s.log ++ [(Call.page_map a av b bv perm, s.next)] := by
  unfold sys_page_map; split <;> rfl

theorem sys_page_map_envs :
    (sys_page_map a av b bv perm s).2.envs =
      if s.next = 0 then
        install s.envs b (PGNUM bv) (mkPte (PGNUM ((s.envs a).env_pgtbl (PGNUM av))) perm)
      else s.envs := by
  unfold sys_page_map; split <;> rfl

@[simp] theorem sys_page_alloc_fst : (sys_page_alloc a av perm s).1 = s.next := rfl

@[simp] theorem sys_page_alloc_mem : (sys_page_alloc a av perm s).2.mem = s.mem := by
  unfold sys_page_alloc; split <;> rfl

@[simp] theorem sys_page_alloc_curenv : (sys_page_alloc a av perm s).2.curenv = s.curenv := by
  unfold sys_page_alloc; split <;> rfl

@[simp] theorem sys_page_alloc_script : (sys_page_alloc a av perm s).2.script = s.script := by
  unfold sys_page_alloc; split <;> rfl

@[simp] theorem sys_page_alloc_ncalls :
    (sys_page_alloc a av perm s).2.ncalls = s.ncalls + 1 := by
  unfold sys_page_alloc; split <;> rfl

@[simp] theorem sys_page_alloc_log :
    (sys_page_alloc a av perm s).2.log = s.log ++ [(Call.page_alloc a av perm, s.next)] := by
  unfold sys_page_alloc; split <;> rfl

theorem sys_page_alloc_nextFrame :
    (sys_page_alloc a av perm s).2.nextFrame =
      if s.next = 0 then s.nextFrame + 1 else s.nextFrame := by
  unfold sys_page_alloc; split <;> rfl

theorem sys_page_alloc_envs :
    (sys_page_alloc a av perm s).2.envs =
      if s.next = 0 then install s.envs a (PGNUM av) (mkPte s.nextFrame perm) else s.envs := by
  unfold sys_page_alloc; split <;> rfl

end kernel

/-! ## `duppage` -/

section duppage
variable (envid : Int) (pn : Nat) (s : Machine)

/-- The status `duppage` returns is the first non-zero answer of its two calls. -/
theorem duppage_fst :
    (duppage envid pn s).1 =
      if s.script s.ncalls ≠ 0 then s.script s.ncalls else s.script (s.ncalls + 1) := by
  simp only [duppage, sys_page_map_fst, Machine.next]
  split
  · rfl
  · simp only [sys_page_map_script, sys_page_map_ncalls]
    split <;> simp_all

@[simp] theorem duppage_mem : (duppage envid pn s).2.mem = s.mem := by
  simp only [duppage]; split
  · simp
  · split <;> simp

@[simp] theorem duppage_curenv : (duppage envid pn s).2.curenv = s.curenv := by
  simp only [duppage]; split
  · simp
  · split <;> simp [sys_getenvid]

@[simp] theorem duppage_nextFrame : (duppage envid pn s).2.nextFrame = s.nextFrame := by
  simp only [duppage]; split
  · simp
  · split <;> simp

@[simp] theorem duppage_script : (duppage envid pn s).2.script = s.script := by
  simp only [duppage]; split
  · simp
  · split <;> simp

@[simp] theorem duppage_thisenv : (duppage envid pn s).2.thisenv = s.thisenv := by
  simp only [duppage]; split
  · simp
  · split <;> simp

@[simp] theorem duppage_handler : (duppage envid pn s).2.handler = s.handler := by
  simp only [duppage]; split
  · simp
  · split <;> simp

/-- The address space `duppage` leaves when the kernel accepts both calls. -/
theorem duppage_envs_ok (h : (duppage envid pn s).1 = 0) :
    (duppage envid pn s).2.envs =
      install
        (install s.envs envid (PGNUM ((pn * PGSIZE) % 2 ^ 32))
          (mkPte (PGNUM (uvpt s (PGNUM ((pn * PGSIZE) % 2 ^ 32)))) (dupFlags (uvpt s pn))))
        s.curenv (PGNUM ((pn * PGSIZE) % 2 ^ 32))
        (mkPte (PGNUM (((install s.envs envid (PGNUM ((pn * PGSIZE) % 2 ^ 32))
            (mkPte (PGNUM (uvpt s (PGNUM ((pn * PGSIZE) % 2 ^ 32)))) (dupFlags (uvpt s pn))))
            s.curenv).env_pgtbl (PGNUM ((pn * PGSIZE) % 2 ^ 32))))
          (dupFlags (uvpt s pn))) := by
  rw [duppage_fst] at h
  have h1 : s.script s.ncalls = 0 := by
    by_contra hne; rw [if_pos hne] at h; exact hne h
  have h2 : s.script (s.ncalls + 1) = 0 := by
    rw [if_neg (by simpa using h1)] at h; exact h
  simp [duppage, sys_page_map_envs, Machine.next, h1, h2, sys_getenvid, uvpt]

theorem duppage_zero_iff :
    (duppage envid pn s).1 = 0 ↔ s.script s.ncalls = 0 ∧ s.script (s.ncalls + 1) = 0 := by
  rw [duppage_fst]
  constructor
  · intro h
    by_cases h1 : s.script s.ncalls = 0
    · rw [if_neg (by simpa using h1)] at h; exact ⟨h1, h⟩
    · rw [if_pos h1] at h; exact absurd h h1
  · rintro ⟨h1, h2⟩
    rw [if_neg (by simpa using h1)]; exact h2

end duppage

/-- C1: when the kernel accepts both map calls, `duppage envid pn` returns 0 and
the target and the caller both end up with the caller's frame at page pn under one
and the same permission: Present, User, Copy-On-Write when the entry had the
write bit or the copy-on-write bit, the entry's own permission bits otherwise. -/
theorem duppage_installs (s : Machine) (envid : Int) (pn : Nat)
    (hpn : pn < NPTENTRIES * NPTENTRIES)
    (h1 : s.script s.ncalls = 0) (h2 : s.script (s.ncalls + 1) = 0) :
    (duppage envid pn s).1 = 0 ∧
    PGNUM (((duppage envid pn s).2.envs envid).env_pgtbl pn) = PGNUM (uvpt s pn) ∧
    PGNUM (uvpt (duppage envid pn s).2 pn) = PGNUM (uvpt s pn) ∧
    PGOFF (((duppage envid pn s).2.envs envid).env_pgtbl pn) =
      (if uvpt s pn &&& PTE_W ≠ 0 ∨ uvpt s pn &&& PTE_COW ≠ 0
        then PTE_P ||| PTE_U ||| PTE_COW else PGOFF (uvpt s pn)) ∧
    PGOFF (uvpt (duppage envid pn s).2 pn) =
      (if uvpt s pn &&& PTE_W ≠ 0 ∨ uvpt s pn &&& PTE_COW ≠ 0
        then PTE_P ||| PTE_U ||| PTE_COW else PGOFF (uvpt s pn)) := by
  have hflags : (if uvpt s pn &&& PTE_W ≠ 0 ∨ uvpt s pn &&& PTE_COW ≠ 0
        then PTE_P ||| PTE_U ||| PTE_COW else PGOFF (uvpt s pn)) = dupFlags (uvpt s pn) := by
    unfold dupFlags; split <;> rfl
  have hlt := dupFlags_lt (uvpt s pn)
  have h0 : (duppage envid pn s).1 = 0 := (duppage_zero_iff envid pn s).2 ⟨h1, h2⟩
  rw [hflags]
  refine ⟨h0, ?_⟩
  simp only [uvpt, duppage_curenv, duppage_envs_ok envid pn s h0, PGNUM_page_va pn hpn,
    install_pgtbl, PGNUM_mkPte, PGOFF_mkPte] at hlt ⊢
  refine ⟨?_, ?_, ?_, ?_⟩
  · by_cases h : envid = s.curenv <;> simp [h, PGNUM_mkPte]
  · simp only [true_and, ite_true]; split <;> simp [PGNUM_mkPte]
  · by_cases h : envid = s.curenv <;> simp [h, PGOFF_mkPte] <;> omega
  · simp [PGOFF_mkPte]; omega

/-! ## `install` -/

theorem install_other (envs : Int → Env) (envid e : Int) (pn pte : Nat) (h : e ≠ envid) :
    install envs envid pn pte e = envs e := by
  simp [install, setAt, h]

theorem install_upcall (envs : Int → Env) (envid e : Int) (pn pte : Nat) :
    (install envs envid pn pte e).env_pgfault_upcall = (envs e).env_pgfault_upcall := by
  unfold install setAt
  by_cases he : e = envid
  · subst he; simp
  · simp [he]

theorem install_status (envs : Int → Env) (envid e : Int) (pn pte : Nat) :
    (install envs envid pn pte e).env_status = (envs e).env_status := by
  unfold install setAt
  by_cases he : e = envid
  · subst he; simp
  · simp [he]

theorem install_pgdir_of_present (envs : Int → Env) (envid e : Int) (pn pte : Nat)
    (h : (envs envid).env_pgdir (pn / NPTENTRIES) &&& PTE_P ≠ 0) :
    (install envs envid pn pte e).env_pgdir = (envs e).env_pgdir := by
  unfold install setAt
  by_cases he : e = envid
  · subst he; simp [h]
  · simp [he]

theorem install_pgdir_present (envs : Int → Env) (envid : Int) (pn pte : Nat) :
    (install envs envid pn pte envid).env_pgdir (pn / NPTENTRIES) &&& PTE_P ≠ 0 := by
  unfold install setAt
  by_cases h : (envs envid).env_pgdir (pn / NPTENTRIES) &&& PTE_P = 0
  · simp [h]; decide
  · simp [h]

theorem install_pgdir_mono (envs : Int → Env) (envid e : Int) (pn pte i : Nat)
    (h : (envs e).env_pgdir i &&& PTE_P ≠ 0) :
    (install envs envid pn pte e).env_pgdir i &&& PTE_P ≠ 0 := by
  unfold install setAt
  by_cases he : e = envid
  · subst he
    by_cases h' : (envs e).env_pgdir (pn / NPTENTRIES) &&& PTE_P = 0
    · simp only [h', ne_eq, not_true_eq_false, ↓reduceIte]
      by_cases hi : i = pn / NPTENTRIES
      · subst hi; exact absurd h' h
      · simp [hi, h]
    · simp [h', h]
  · simp [he, h]

/-! ## Loops -/

theorem forLoop_zero (body : Nat → Machine → Outcome Unit) (lo : Nat) (s : Machine) :
    forLoop body lo 0 s = .ret () s := rfl

theorem forLoop_succ_ret (body : Nat → Machine → Outcome Unit) (lo n : Nat) (s s1 : Machine)
    (h : body lo s = .ret () s1) :
    forLoop body lo (n + 1) s = forLoop body (lo + 1) n s1 := by
  simp [forLoop, h]

theorem forLoop_succ_panic (body : Nat → Machine → Outcome Unit) (lo n : Nat) (s s1 : Machine)
    (p : Panic) (h : body lo s = .panic p s1) :
    forLoop body lo (n + 1) s = .panic p s1 := by
  simp [forLoop, h]

/-- Invariant rule for a loop that returns. -/
theorem forLoop_ret_inv (body : Nat → Machine → Outcome Unit) (P : Nat → Machine → Prop)
    (hi : Nat) (hstep : ∀ k s s1, k < hi → P k s → body k s = .ret () s1 → P (k + 1) s1) :
    ∀ (n lo : Nat) (s s1 : Machine), lo + n ≤ hi → P lo s →
      forLoop body lo n s = .ret () s1 → P (lo + n) s1 := by
  intro n
  induction n with
  | zero =>
    intro lo s s1 _ hP h
    rw [forLoop_zero] at h
    cases h
    exact hP
  | succ n ih =>
    intro lo s s1 hle hP h
    cases hb : body lo s with
    | ret v s2 =>
      rw [forLoop_succ_ret body lo n s s2 hb] at h
      have := ih (lo + 1) s2 s1 (by omega) (hstep lo s s2 (by omega) hP hb) h
      rwa [Nat.add_assoc, Nat.add_comm 1 n] at this
    | panic p s2 =>
      rw [forLoop_succ_panic body lo n s s2 p hb] at h
      cases h

/-- Rule for a reflexive and transitive relation between the state a loop starts in
and the state it ends in, returning or not. -/
theorem forLoop_state_rel (body : Nat → Machine → Outcome Unit) (R : Machine → Machine → Prop)
    (hrefl : ∀ s, R s s) (htrans : ∀ a b c, R a b → R b c → R a c)
    (hi : Nat) (hstep : ∀ k s, k < hi → R s (body k s).state) :
    ∀ (n lo : Nat) (s : Machine), lo + n ≤ hi → R s (forLoop body lo n s).state := by
  intro n
  induction n with
  | zero => intro lo s _; exact hrefl s
  | succ n ih =>
    intro lo s hle
    cases hb : body lo s with
    | ret v s2 =>
      rw [forLoop_succ_ret body lo n s s2 hb]
      have h1 := hstep lo s (by omega)
      rw [hb] at h1
      exact htrans _ _ _ h1 (ih (lo + 1) s2 (by omega))
    | panic p s2 =>
      rw [forLoop_succ_panic body lo n s s2 p hb]
      have h1 := hstep lo s (by omega)
      rw [hb] at h1
      exact h1

/-! ## The walk of `fork` -/

theorem WalkInv.start (L : Layout) (cpid : Int) (s0 : Machine) : WalkInv L cpid s0 s0 0 where
  curenv := rfl
  mem := rfl
  nextFrame := rfl
  script := rfl
  thisenv := rfl
  handler := rfl
  upcall := fun _ => rfl
  status := fun _ => rfl
  others := fun _ _ _ => rfl
  pgdir := rfl
  parent := fun pn => by simp [uvpt]
  child := fun pn => by simp
  childDir := fun pn h => absurd h (Nat.not_lt_zero pn)

/-- Pages that fail the test of the walk can be passed over. -/
theorem WalkInv.skip {L : Layout} {cpid : Int} {s0 s : Machine} {m : Nat}
    (h : WalkInv L cpid s0 s m) (m' : Nat) (hm : m ≤ m')
    (hno : ∀ pn, m ≤ pn → pn < m' → ¬ walkTest L s0 pn) : WalkInv L cpid s0 s m' := by
  have key : ∀ pn, (pn < m' ∧ walkTest L s0 pn) ↔ (pn < m ∧ walkTest L s0 pn) := by
    intro pn
    constructor
    · rintro ⟨h1, h2⟩
      refine ⟨?_, h2⟩
      by_contra hc
      exact hno pn (Nat.le_of_not_lt hc) h1 h2
    · rintro ⟨h1, h2⟩
      exact ⟨Nat.lt_of_lt_of_le h1 hm, h2⟩
  refine { h with parent := ?_, child := ?_, childDir := ?_ }
  · intro pn; rw [h.parent pn]; simp only [key pn]
  · intro pn; rw [h.child pn]; simp only [key pn]
  · intro pn h1 h2; exact h.childDir pn ((key pn).1 ⟨h1, h2⟩).1 h2

/-- One page of the walk. -/
theorem forkPage_inv (L : Layout) (cpid : Int) (s0 s s1 : Machine) (i j : Nat)
    (hne : cpid ≠ s0.curenv) (hi : i < NPTENTRIES) (hj : j < NPTENTRIES)
    (hdir : uvpd s0 i &&& PTE_P ≠ 0)
    (hinv : WalkInv L cpid s0 s (i * NPTENTRIES + j))
    (h : forkPage L cpid i j s = .ret () s1) :
    WalkInv L cpid s0 s1 (i * NPTENTRIES + j + 1) := by
  have hpn : i * NPTENTRIES + j < NPTENTRIES * NPTENTRIES := by
    unfold NPTENTRIES at *; omega
  have hdiv : (i * NPTENTRIES + j) / NPTENTRIES = i := by
    unfold NPTENTRIES at *; omega
  have hcur : uvpt s (i * NPTENTRIES + j) = uvpt s0 (i * NPTENTRIES + j) := by
    have := hinv.parent (i * NPTENTRIES + j)
    simp only [Nat.lt_irrefl, false_and, ↓reduceIte] at this
    simpa only [uvpt, hinv.curenv] using this
  have htest : (uvpt s (i * NPTENTRIES + j) &&& (PTE_P ||| PTE_U) ≠ 0 ∧
      i * NPTENTRIES + j ≠ PGNUM (L.UXSTACKTOP - PGSIZE)) ↔
      walkTest L s0 (i * NPTENTRIES + j) := by
    unfold walkTest
    rw [hdiv, hcur]
    constructor
    · rintro ⟨a, b⟩; exact ⟨hdir, a, b⟩
    · rintro ⟨_, a, b⟩; exact ⟨a, b⟩
  unfold forkPage at h
  simp only [] at h
  by_cases ht : walkTest L s0 (i * NPTENTRIES + j)
  · rw [if_pos (htest.2 ht)] at h
    by_cases hr : (duppage cpid (i * NPTENTRIES + j) s).1 = 0
    · simp only [hr, ne_eq, not_true_eq_false, ↓reduceIte, Outcome.ret.injEq, true_and] at h
      subst h
      have henvs := duppage_envs_ok cpid (i * NPTENTRIES + j) s hr
      rw [PGNUM_page_va _ hpn, hinv.curenv] at henvs
      have hne' : s0.curenv ≠ cpid := fun h => hne h.symm
      have hdir' : (s.envs s0.curenv).env_pgdir ((i * NPTENTRIES + j) / NPTENTRIES) &&& PTE_P ≠ 0 := by
        rw [hdiv, hinv.pgdir]; exact hdir
      constructor
      · rw [duppage_curenv]; exact hinv.curenv
      · rw [duppage_mem]; exact hinv.mem
      · rw [duppage_nextFrame]; exact hinv.nextFrame
      · rw [duppage_script]; exact hinv.script
      · rw [duppage_thisenv]; exact hinv.thisenv
      · rw [duppage_handler]; exact hinv.handler
      · intro e; rw [henvs, install_upcall, install_upcall]; exact hinv.upcall e
      · intro e; rw [henvs, install_status, install_status]; exact hinv.status e
      · intro e h1 h2
        rw [henvs, install_other _ _ _ _ _ h1, install_other _ _ _ _ _ h2]
        exact hinv.others e h1 h2
      · rw [henvs, install_pgdir_of_present, install_other _ _ _ _ _ hne']
        · exact hinv.pgdir
        · rw [install_other _ _ _ _ _ hne']; exact hdir'
      · intro pn
        rw [henvs]
        by_cases hq : pn = i * NPTENTRIES + j
        · subst hq
          have h0 := hinv.parent (i * NPTENTRIES + j)
          simp only [Nat.lt_irrefl, false_and, ↓reduceIte] at h0
          simp [install_pgtbl, hne', ht, hcur, h0, dupPte]
        · have hlt : (pn < i * NPTENTRIES + j + 1) ↔ (pn < i * NPTENTRIES + j) := by omega
          simp only [install_pgtbl, hq, and_false, ↓reduceIte, hlt]
          exact hinv.parent pn
      · intro pn
        rw [henvs]
        by_cases hq : pn = i * NPTENTRIES + j
        · subst hq
          simp [install_pgtbl, hne, ht, hcur, dupPte]
        · have hlt : (pn < i * NPTENTRIES + j + 1) ↔ (pn < i * NPTENTRIES + j) := by omega
          simp only [install_pgtbl, hq, and_false, ↓reduceIte, hlt]
          exact hinv.child pn
      · intro pn h1 h2
        rw [henvs]
        apply install_pgdir_mono
        by_cases hq : pn = i * NPTENTRIES + j
        · subst hq; exact install_pgdir_present _ _ _ _
        · apply install_pgdir_mono
          exact hinv.childDir pn (by omega) h2
    · simp [hr] at h
  · rw [if_neg (fun hc => ht (htest.1 hc))] at h
    cases h
    exact hinv.skip _ (Nat.le_succ _) (by
      intro pn h1 h2
      have : pn = i * NPTENTRIES + j := by omega
      subst this; exact ht)

theorem PDX_lt (la : Nat) : PDX la < NPTENTRIES := by
  unfold PDX NPTENTRIES
  have : (la >>> 22) &&& 0x3FF ≤ 0x3FF := Nat.and_le_right
  omega

/-- One page table of the walk. -/
theorem forkTable_inv (L : Layout) (cpid : Int) (s0 s s1 : Machine) (i : Nat)
    (hne : cpid ≠ s0.curenv) (hi : i < NPTENTRIES)
    (hinv : WalkInv L cpid s0 s (i * NPTENTRIES))
    (h : forkTable L cpid i s = .ret () s1) :
    WalkInv L cpid s0 s1 ((i + 1) * NPTENTRIES) := by
  have hd : uvpd s i = uvpd s0 i := by
    unfold uvpd; rw [hinv.curenv, hinv.pgdir]
  unfold forkTable at h
  by_cases hdir : uvpd s0 i &&& PTE_P ≠ 0
  · rw [hd, if_pos hdir] at h
    have := forLoop_ret_inv (forkPage L cpid i)
      (fun j s => WalkInv L cpid s0 s (i * NPTENTRIES + j)) NPTENTRIES
      (fun k s s1 hk hP hb => by
        have := forkPage_inv L cpid s0 s s1 i k hne hi hk hdir hP hb
        rwa [Nat.add_assoc] at this)
      NPTENTRIES 0 s s1 (Nat.le_of_eq (Nat.zero_add _)) (by show WalkInv L cpid s0 s (i * NPTENTRIES + 0); rw [Nat.add_zero]; exact hinv) h
    have e : (i + 1) * NPTENTRIES = i * NPTENTRIES + (0 + NPTENTRIES) := by
      unfold NPTENTRIES; omega
    rw [e]; exact this
  · rw [hd, if_neg hdir] at h
    cases h
    refine hinv.skip _ (by unfold NPTENTRIES; omega) ?_
    intro pn h1 h2 ht
    have : pn / NPTENTRIES = i := by unfold NPTENTRIES at *; omega
    exact hdir (this ▸ ht.1)

/-- The whole walk: every page below `PDX(UTOP) * NPTENTRIES` has been dealt with. -/
theorem forkWalk_inv (L : Layout) (cpid : Int) (s0 s1 : Machine)
    (hne : cpid ≠ s0.curenv) (h : forkWalk L cpid s0 = .ret () s1) :
    WalkInv L cpid s0 s1 (PDX L.UTOP * NPTENTRIES) := by
  have := forLoop_ret_inv (forkTable L cpid)
    (fun i s => WalkInv L cpid s0 s (i * NPTENTRIES)) (PDX L.UTOP)
    (fun k s s1 hk hP hb =>
      forkTable_inv L cpid s0 s s1 k hne (Nat.lt_trans hk (PDX_lt _)) hP hb)
    (PDX L.UTOP) 0 s0 s1 (Nat.le_of_eq (Nat.zero_add _))
    (by show WalkInv L cpid s0 s0 (0 * NPTENTRIES); rw [Nat.zero_mul]; exact WalkInv.start L cpid s0) h
  simp only [Nat.zero_add] at this
  exact this

/-! ## The end of `fork` in the parent -/

/-- The three calls after the walk return normally exactly when the kernel
accepts all three. -/
theorem forkFinish_val (L : Layout) (cpid : Int) (s : Machine) :
    (forkFinish L cpid s).val =
      if s.script s.ncalls = 0 ∧ s.script (s.ncalls + 1) = 0 ∧ s.script (s.ncalls + 2) = 0
      then some cpid else none := by
  unfold forkFinish sys_env_set_pgfault_upcall sys_page_alloc sys_env_set_status
  simp only [Machine.next]
  by_cases h1 : s.script s.ncalls = 0
  · by_cases h2 : s.script (s.ncalls + 1) = 0
    · by_cases h3 : s.script (s.ncalls + 2) = 0
      · simp [h1, h2, h3, logCall, Outcome.val, Machine.next]
      · simp [h1, h2, h3, logCall, Outcome.val, Machine.next]
    · simp [h1, h2, logCall, Outcome.val, Machine.next]
  · simp [h1, Outcome.val]

/-- The state the three calls after the walk leave when the kernel accepts them. -/
theorem forkFinish_state (L : Layout) (cpid : Int) (s : Machine)
    (h1 : s.script s.ncalls = 0) (h2 : s.script (s.ncalls + 1) = 0)
    (h3 : s.script (s.ncalls + 2) = 0) :
    (forkFinish L cpid s).state =
      { s with
        ncalls := s.ncalls + 1 + 1 + 1
        log := s.log ++ [(Call.env_set_pgfault_upcall cpid
                  (s.envs (s.thisenv s.curenv)).env_pgfault_upcall, 0)] ++
                [(Call.page_alloc cpid (L.UXSTACKTOP - PGSIZE) (PTE_U ||| PTE_P ||| PTE_W), 0)] ++
                [(Call.env_set_status cpid ENV_RUNNABLE, 0)]
        nextFrame := s.nextFrame + 1
        envs :=
          setAt
            (install
              (setAt s.envs cpid
                { s.envs cpid with
                  env_pgfault_upcall := (s.envs (s.thisenv s.curenv)).env_pgfault_upcall })
              cpid (PGNUM (L.UXSTACKTOP - PGSIZE)) (mkPte s.nextFrame (PTE_U ||| PTE_P ||| PTE_W)))
            cpid
            { install
                (setAt s.envs cpid
                  { s.envs cpid with
                    env_pgfault_upcall := (s.envs (s.thisenv s.curenv)).env_pgfault_upcall })
                cpid (PGNUM (L.UXSTACKTOP - PGSIZE))
                (mkPte s.nextFrame (PTE_U ||| PTE_P ||| PTE_W)) cpid with
              env_status := ENV_RUNNABLE } } := by
  unfold forkFinish sys_env_set_pgfault_upcall sys_page_alloc sys_env_set_status
  simp [h1, h2, h3, logCall, Outcome.state, Machine.next]

section finish
variable (L : Layout) (cpid : Int) (s : Machine)
  (h1 : s.script s.ncalls = 0) (h2 : s.script (s.ncalls + 1) = 0)
  (h3 : s.script (s.ncalls + 2) = 0)
include h1 h2 h3

theorem forkFinish_curenv : (forkFinish L cpid s).state.curenv = s.curenv := by
  rw [forkFinish_state L cpid s h1 h2 h3]

theorem forkFinish_mem : (forkFinish L cpid s).state.mem = s.mem := by
  rw [forkFinish_state L cpid s h1 h2 h3]

theorem forkFinish_script : (forkFinish L cpid s).state.script = s.script := by
  rw [forkFinish_state L cpid s h1 h2 h3]

theorem forkFinish_nextFrame : (forkFinish L cpid s).state.nextFrame = s.nextFrame + 1 := by
  rw [forkFinish_state L cpid s h1 h2 h3]

theorem forkFinish_other (e : Int) (he : e ≠ cpid) :
    (forkFinish L cpid s).state.envs e = s.envs e := by
  rw [forkFinish_state L cpid s h1 h2 h3]
  simp [setAt, he, install_other _ _ _ _ _ he]

theorem forkFinish_child_pgtbl (pn : Nat) :
    ((forkFinish L cpid s).state.envs cpid).env_pgtbl pn =
      if pn = xstackPage L then mkPte s.nextFrame (PTE_U ||| PTE_P ||| PTE_W)
      else (s.envs cpid).env_pgtbl pn := by
  rw [forkFinish_state L cpid s h1 h2 h3]
  simp [setAt, install_pgtbl, xstackPage]

theorem forkFinish_child_pgdir_xstack :
    ((forkFinish L cpid s).state.envs cpid).env_pgdir (xstackPage L / NPTENTRIES) &&& PTE_P ≠ 0 := by
  rw [forkFinish_state L cpid s h1 h2 h3]
  simp only [setAt_same]
  exact install_pgdir_present _ _ _ _

theorem forkFinish_child_pgdir_mono (i : Nat) (h : (s.envs cpid).env_pgdir i &&& PTE_P ≠ 0) :
    ((forkFinish L cpid s).state.envs cpid).env_pgdir i &&& PTE_P ≠ 0 := by
  rw [forkFinish_state L cpid s h1 h2 h3]
  simp only [setAt_same]
  apply install_pgdir_mono
  simp only [setAt_same]
  exact h

theorem forkFinish_child_status :
    ((forkFinish L cpid s).state.envs cpid).env_status = ENV_RUNNABLE := by
  rw [forkFinish_state L cpid s h1 h2 h3]
  simp [setAt]

end finish

/-! ## `fork` as a whole -/

/-- A `fork` that returns a non-zero value went through the walk and the three
calls after it. -/
theorem fork_parent (L : Layout) (s : Machine) (cpid : Int)
    (h : (fork L s).val = some cpid) (hc : cpid ≠ 0) :
    s.script s.ncalls = cpid ∧
    ∃ s2, forkWalk L cpid (sys_exofork (set_pgfault_handler s)).2 = .ret () s2 ∧
      fork L s = forkFinish L cpid s2 := by
  unfold fork at h ⊢
  simp only [] at h ⊢
  have hfst : (sys_exofork (set_pgfault_handler s)).1 = s.script s.ncalls := rfl
  rw [hfst] at h ⊢
  by_cases h1 : s.script s.ncalls = -1
  · simp [h1, Outcome.val] at h
  · rw [if_neg h1] at h ⊢
    by_cases h0 : s.script s.ncalls = 0
    · simp [h0, Outcome.val] at h
      exact absurd h.symm hc
    · rw [if_pos h0] at h ⊢
      cases hw : forkWalk L (s.script s.ncalls) (sys_exofork (set_pgfault_handler s)).2 with
      | panic p s2 => rw [hw] at h; simp [Outcome.val] at h
      | ret v s2 =>
        rw [hw] at h
        simp only [] at h
        have : s.script s.ncalls = cpid := by
          rw [forkFinish_val] at h
          split at h
          · exact Option.some.inj h
          · cases h
        subst this
        exact ⟨rfl, s2, hw, rfl⟩

section exofork
variable (s : Machine) (h : 0 < s.script s.ncalls)
include h

theorem sys_exofork_curenv : (sys_exofork (set_pgfault_handler s)).2.curenv = s.curenv := by
  simp [sys_exofork, set_pgfault_handler, logCall, Machine.next, h]

theorem sys_exofork_mem : (sys_exofork (set_pgfault_handler s)).2.mem = s.mem := by
  simp [sys_exofork, set_pgfault_handler, logCall, Machine.next, h]

theorem sys_exofork_nextFrame :
    (sys_exofork (set_pgfault_handler s)).2.nextFrame = s.nextFrame := by
  simp [sys_exofork, set_pgfault_handler, logCall, Machine.next, h]

theorem sys_exofork_script : (sys_exofork (set_pgfault_handler s)).2.script = s.script := by
  simp [sys_exofork, set_pgfault_handler, logCall, Machine.next, h]

theorem sys_exofork_envs :
    (sys_exofork (set_pgfault_handler s)).2.envs = setAt s.envs (s.script s.ncalls) emptyEnv := by
  simp [sys_exofork, set_pgfault_handler, logCall, Machine.next, h]

end exofork

theorem fork_post (L : Layout) (s : Machine) (cpid : Int)
    (h : (fork L s).val = some cpid) (hpos : 0 < cpid) (hne : cpid ≠ s.curenv) :
    ForkPost L s cpid (fork L s).state := by
  obtain ⟨hcp, s2, hw, hf⟩ := fork_parent L s cpid h (by omega)
  have hpos' : 0 < s.script s.ncalls := by rw [hcp]; exact hpos
  have e1 := sys_exofork_curenv s hpos'
  have e2 := sys_exofork_mem s hpos'
  have e3 := sys_exofork_nextFrame s hpos'
  have e4 := sys_exofork_script s hpos'
  have e5 := sys_exofork_envs s hpos'
  rw [hcp] at e5
  generalize (sys_exofork (set_pgfault_handler s)).2 = s0 at hw e1 e2 e3 e4 e5
  rw [hf] at h ⊢
  have hne' : s.curenv ≠ cpid := fun e => hne e.symm
  have hinv := forkWalk_inv L cpid s0 s2 (by rw [e1]; exact hne) hw
  have hpar : s0.envs s.curenv = s.envs s.curenv := by
    rw [e5]; simp [setAt, hne']
  have hchi : s0.envs cpid = emptyEnv := by
    rw [e5]; simp [setAt]
  have hwt : ∀ pn, walkTest L s0 pn ↔ walkTest L s pn := by
    intro pn
    simp only [walkTest, uvpd, uvpt, e1, hpar]
  have huv : ∀ pn, uvpt s0 pn = uvpt s pn := by
    intro pn
    simp only [uvpt, e1, hpar]
  rw [forkFinish_val] at h
  have h3 : s2.script s2.ncalls = 0 ∧ s2.script (s2.ncalls + 1) = 0 ∧
      s2.script (s2.ncalls + 2) = 0 := by
    by_contra hc; rw [if_neg hc] at h; cases h
  obtain ⟨a1, a2, a3⟩ := h3
  constructor
  · rw [forkFinish_curenv L cpid s2 a1 a2 a3, hinv.curenv, e1]
  · rw [forkFinish_mem L cpid s2 a1 a2 a3, hinv.mem, e2]
  · rw [forkFinish_nextFrame L cpid s2 a1 a2 a3, hinv.nextFrame, e3]
  · rw [forkFinish_script L cpid s2 a1 a2 a3, hinv.script, e4]
  · intro e h1 h2
    rw [forkFinish_other L cpid s2 a1 a2 a3 e h2, hinv.others e (by rw [e1]; exact h1) h2, e5]
    simp [setAt, h2]
  · rw [forkFinish_other L cpid s2 a1 a2 a3 _ hne']
    have := hinv.pgdir
    rw [e1, hpar] at this
    exact this
  · intro pn
    rw [forkFinish_other L cpid s2 a1 a2 a3 _ hne']
    have := hinv.parent pn
    rw [e1] at this
    simp only [hwt, huv] at this
    exact this
  · intro pn
    rw [forkFinish_child_pgtbl L cpid s2 a1 a2 a3, hinv.nextFrame, e3]
    have := hinv.child pn
    simp only [hwt, huv, hchi] at this
    rw [this]
    rfl
  · intro pn hpn
    rcases hpn with hx | ⟨h1, h2⟩
    · subst hx; exact forkFinish_child_pgdir_xstack L cpid s2 a1 a2 a3
    · apply forkFinish_child_pgdir_mono L cpid s2 a1 a2 a3
      exact hinv.childDir pn h1 ((hwt pn).2 h2)
  · exact forkFinish_child_status L cpid s2 a1 a2 a3

/-! ## The log of kernel calls -/

section log
variable (a b : Int) (av bv perm : Nat) (s : Machine)

@[simp] theorem sys_env_set_pgfault_upcall_log :
    (sys_env_set_pgfault_upcall a av s).2.log =
      s.log ++ [(Call.env_set_pgfault_upcall a av, s.next)] := by
  unfold sys_env_set_pgfault_upcall; split <;> rfl

@[simp] theorem sys_env_set_status_log :
    (sys_env_set_status a av s).2.log = s.log ++ [(Call.env_set_status a av, s.next)] := by
  unfold sys_env_set_status; split <;> rfl

@[simp] theorem sys_exofork_log : (sys_exofork s).2.log = s.log ++ [(Call.exofork, s.next)] := by
  unfold sys_exofork; split <;> rfl

end log

theorem issued_of_log {α : Type} (s : Machine) (o : Outcome α) (w : List (Call × Int))
    (h : o.state.log = s.log ++ w) : issued s o = w := by
  unfold issued; rw [h]; exact List.drop_left _ _

/-- Calls `duppage` makes: page-map calls from the caller, source and destination
address both the address of page pn; all answered 0 when `duppage` returns 0. -/
theorem duppage_log (envid : Int) (pn : Nat) (s : Machine) :
    ∃ w, (duppage envid pn s).2.log = s.log ++ w ∧
      (∀ x ∈ w, ∃ dst perm, x.1 = Call.page_map s.curenv ((pn * PGSIZE) % 2 ^ 32) dst
          ((pn * PGSIZE) % 2 ^ 32) perm) ∧
      ((duppage envid pn s).1 = 0 → ∀ x ∈ w, x.2 = 0) := by
  by_cases h1 : s.script s.ncalls = 0
  · by_cases h2 : s.script (s.ncalls + 1) = 0
    · refine ⟨[(Call.page_map s.curenv ((pn * PGSIZE) % 2 ^ 32) envid
          ((pn * PGSIZE) % 2 ^ 32) (dupFlags (uvpt s pn)), 0),
        (Call.page_map s.curenv ((pn * PGSIZE) % 2 ^ 32) s.curenv
          ((pn * PGSIZE) % 2 ^ 32) (dupFlags (uvpt s pn)), 0)], ?_, ?_, ?_⟩
      · simp [duppage, Machine.next, h1, h2, sys_getenvid]
      · intro x hx
        simp only [List.mem_cons, List.mem_singleton, List.not_mem_nil, or_false] at hx
        rcases hx with rfl | rfl
        · exact ⟨_, _, rfl⟩
        · exact ⟨_, _, rfl⟩
      · intro _ x hx
        simp only [List.mem_cons, List.mem_singleton, List.not_mem_nil, or_false] at hx
        rcases hx with rfl | rfl <;> rfl
    · refine ⟨[(Call.page_map s.curenv ((pn * PGSIZE) % 2 ^ 32) envid
          ((pn * PGSIZE) % 2 ^ 32) (dupFlags (uvpt s pn)), 0),
        (Call.page_map s.curenv ((pn * PGSIZE) % 2 ^ 32) s.curenv
          ((pn * PGSIZE) % 2 ^ 32) (dupFlags (uvpt s pn)), s.script (s.ncalls + 1))], ?_, ?_, ?_⟩
      · simp [duppage, Machine.next, h1, h2, sys_getenvid]
      · intro x hx
        simp only [List.mem_cons, List.mem_singleton, List.not_mem_nil, or_false] at hx
        rcases hx with rfl | rfl
        · exact ⟨_, _, rfl⟩
        · exact ⟨_, _, rfl⟩
      · intro h0
        exact absurd ((duppage_zero_iff envid pn s).1 h0).2 h2
  · refine ⟨[(Call.page_map s.curenv ((pn * PGSIZE) % 2 ^ 32) envid
        ((pn * PGSIZE) % 2 ^ 32) (dupFlags (uvpt s pn)), s.script s.ncalls)], ?_, ?_, ?_⟩
    · simp [duppage, Machine.next, h1, sys_getenvid]
    · intro x hx
      simp only [List.mem_singleton] at hx
      subst hx
      exact ⟨_, _, rfl⟩
    · intro h0
      exact absurd ((duppage_zero_iff envid pn s).1 h0).1 h1

theorem WalkLog.refl (L : Layout) (ok : Prop) (s : Machine) : WalkLog L ok s s :=
  ⟨rfl, [], by simp, by simp, by simp⟩

theorem WalkLog.trans {L : Layout} {ok : Prop} {a b c : Machine}
    (h1 : WalkLog L ok a b) (h2 : WalkLog L ok b c) : WalkLog L ok a c := by
  obtain ⟨e1, w1, l1, g1, z1⟩ := h1
  obtain ⟨e2, w2, l2, g2, z2⟩ := h2
  refine ⟨e2.trans e1, w1 ++ w2, ?_, ?_, ?_⟩
  · rw [l2, l1, List.append_assoc]
  · intro x hx
    rcases List.mem_append.1 hx with h | h
    · exact g1 x h
    · rw [← e1]; exact g2 x h
  · intro hok x hx
    rcases List.mem_append.1 hx with h | h
    · exact z1 hok x h
    · exact z2 hok x h

theorem WalkLog.weaken {L : Layout} {ok : Prop} {a b : Machine}
    (h : WalkLog L ok a b) : WalkLog L False a b := by
  obtain ⟨e1, w1, l1, g1, _⟩ := h
  exact ⟨e1, w1, l1, g1, fun hf => hf.elim⟩

/-- The calls of one page of the walk. -/
theorem forkPage_log (L : Layout) (cpid : Int) (i j : Nat) (s : Machine)
    (hi : i < NPTENTRIES) (hj : j < NPTENTRIES) :
    WalkLog L ((forkPage L cpid i j s).val = some ()) s (forkPage L cpid i j s).state := by
  have hpn : i * NPTENTRIES + j < NPTENTRIES * NPTENTRIES := by
    unfold NPTENTRIES at *; omega
  unfold forkPage
  simp only []
  split
  · rename_i ht
    obtain ⟨w, hl, hg, hz⟩ := duppage_log cpid (i * NPTENTRIES + j) s
    by_cases hr : (duppage cpid (i * NPTENTRIES + j) s).1 = 0
    · simp only [hr, ne_eq, not_true_eq_false, ↓reduceIte, Outcome.state]
      refine ⟨duppage_curenv _ _ _, w, hl, ?_, fun _ => hz hr⟩
      intro x hx
      obtain ⟨dst, perm, hx'⟩ := hg x hx
      refine ⟨_, dst, perm, hx', ?_⟩
      rw [PGNUM_page_va _ hpn]
      exact ht.2
    · simp only [hr, ne_eq, not_false_eq_true, ↓reduceIte, Outcome.state, Outcome.val]
      refine ⟨duppage_curenv _ _ _, w, hl, ?_, fun h => by cases h⟩
      intro x hx
      obtain ⟨dst, perm, hx'⟩ := hg x hx
      refine ⟨_, dst, perm, hx', ?_⟩
      rw [PGNUM_page_va _ hpn]
      exact ht.2
  · exact WalkLog.refl L _ s

/-- Weak form of the log relation for any outcome of a loop, strong form when it returns. -/
theorem forLoop_log (L : Layout) (body : Nat → Machine → Outcome Unit) (hi : Nat)
    (hstep : ∀ k s, k < hi → WalkLog L ((body k s).val = some ()) s (body k s).state) :
    ∀ (n lo : Nat) (s : Machine), lo + n ≤ hi →
      WalkLog L ((forLoop body lo n s).val = some ()) s (forLoop body lo n s).state := by
  intro n
  induction n with
  | zero => intro lo s _; exact WalkLog.refl L _ s
  | succ n ih =>
    intro lo s hle
    have h1 := hstep lo s (by omega)
    cases hb : body lo s with
    | ret v s2 =>
      rw [forLoop_succ_ret body lo n s s2 hb]
      rw [hb] at h1
      have h2 := ih (lo + 1) s2 (by omega)
      obtain ⟨e1, w1, l1, g1, z1⟩ := h1
      obtain ⟨e2, w2, l2, g2, z2⟩ := h2
      refine ⟨e2.trans e1, w1 ++ w2, ?_, ?_, ?_⟩
      · rw [l2]; simp only [Outcome.state] at l1; rw [l1, List.append_assoc]
      · intro x hx
        rcases List.mem_append.1 hx with h | h
        · exact g1 x h
        · simp only [Outcome.state] at e1; rw [← e1]; exact g2 x h
      · intro hok x hx
        rcases List.mem_append.1 hx with h | h
        · exact z1 rfl x h
        · exact z2 hok x h
    | panic p s2 =>
      rw [forLoop_succ_panic body lo n s s2 p hb]
      rw [hb] at h1
      obtain ⟨e1, w1, l1, g1, _⟩ := h1
      exact ⟨e1, w1, l1, g1, fun h => by cases h⟩

theorem forkTable_log (L : Layout) (cpid : Int) (i : Nat) (s : Machine) (hi : i < NPTENTRIES) :
    WalkLog L ((forkTable L cpid i s).val = some ()) s (forkTable L cpid i s).state := by
  unfold forkTable
  split
  · exact forLoop_log L (forkPage L cpid i) NPTENTRIES
      (fun k s hk => forkPage_log L cpid i k s hi hk) NPTENTRIES 0 s
      (Nat.le_of_eq (Nat.zero_add _))
  · exact WalkLog.refl L _ s

/-- The calls of the walk of `fork`. -/
theorem forkWalk_log (L : Layout) (cpid : Int) (s : Machine) :
    WalkLog L ((forkWalk L cpid s).val = some ()) s (forkWalk L cpid s).state := by
  unfold forkWalk
  exact forLoop_log L (forkTable L cpid) (PDX L.UTOP)
    (fun k s hk => forkTable_log L cpid k s (Nat.lt_trans hk (PDX_lt _))) (PDX L.UTOP) 0 s
    (Nat.le_of_eq (Nat.zero_add _))

/-- The calls of the end of `fork`. -/
theorem forkFinish_log (L : Layout) (cpid : Int) (s : Machine) :
    (forkFinish L cpid s).state.log =
      s.log ++ finishCalls L cpid (s.envs (s.thisenv s.curenv)).env_pgfault_upcall
        (s.script s.ncalls) (s.script (s.ncalls + 1)) (s.script (s.ncalls + 2)) := by
  unfold forkFinish sys_env_set_pgfault_upcall sys_page_alloc sys_env_set_status finishCalls
  simp only [Machine.next]
  by_cases h1 : s.script s.ncalls = 0
  · by_cases h2 : s.script (s.ncalls + 1) = 0
    · by_cases h3 : s.script (s.ncalls + 2) = 0
      · simp [h1, h2, h3, logCall, Outcome.state, Machine.next]
      · simp [h1, h2, h3, logCall, Outcome.state, Machine.next]
    · simp [h1, h2, logCall, Outcome.state, Machine.next]
  · simp [h1, logCall, Outcome.state, Machine.next]

/-- The calls of `fork`: the create-process call and nothing else when its answer is
-1 or 0; otherwise the page-map calls of the walk and, if the walk went through, the
calls of the end of `fork`. -/
theorem fork_log (L : Layout) (s : Machine) :
    ((s.script s.ncalls = -1 ∨ s.script s.ncalls = 0) ∧
      issued s (fork L s) = [(Call.exofork, s.script s.ncalls)]) ∨
    (s.script s.ncalls ≠ -1 ∧ s.script s.ncalls ≠ 0 ∧
      ∃ w, (∀ x ∈ w, ∃ va dst perm, x.1 = Call.page_map s.curenv va dst va perm ∧
              PGNUM va ≠ xstackPage L) ∧
        (((fork L s).val = none ∧
            issued s (fork L s) = (Call.exofork, s.script s.ncalls) :: w) ∨
         ((∀ x ∈ w, x.2 = 0) ∧ ∃ up r1 r2 r3,
            issued s (fork L s) =
              (Call.exofork, s.script s.ncalls) :: (w ++ finishCalls L (s.script s.ncalls) up r1 r2 r3) ∧
            (fork L s).val =
              if r1 = 0 ∧ r2 = 0 ∧ r3 = 0 then some (s.script s.ncalls) else none))) := by
  have hfst : (sys_exofork (set_pgfault_handler s)).1 = s.script s.ncalls := rfl
  have hlog : (sys_exofork (set_pgfault_handler s)).2.log =
      s.log ++ [(Call.exofork, s.script s.ncalls)] := by
    rw [sys_exofork_log]; rfl
  have hcur : (sys_exofork (set_pgfault_handler s)).2.curenv = s.curenv := by
    unfold sys_exofork; split <;> rfl
  by_cases h1 : s.script s.ncalls = -1
  · left
    refine ⟨Or.inl h1, ?_⟩
    apply issued_of_log
    unfold fork
    simp only [hfst, h1, ↓reduceIte, Outcome.state]
    rw [hlog, h1]
  · by_cases h0 : s.script s.ncalls = 0
    · left
      refine ⟨Or.inr h0, ?_⟩
      apply issued_of_log
      unfold fork
      simp only [hfst, h0]
      simp only [Outcome.state]
      rw [hlog, h0]
      simp
    · right
      refine ⟨h1, h0, ?_⟩
      obtain ⟨ec, w, hl, hg, hz⟩ :=
        forkWalk_log L (s.script s.ncalls) (sys_exofork (set_pgfault_handler s)).2
      refine ⟨w, ?_, ?_⟩
      · intro x hx; rw [← hcur]; exact hg x hx
      · cases hw : forkWalk L (s.script s.ncalls) (sys_exofork (set_pgfault_handler s)).2 with
        | panic p s2 =>
          left
          rw [hw] at hl
          simp only [Outcome.state] at hl
          have hf : fork L s = .panic p s2 := by
            unfold fork
            simp only [hfst, h1, h0, ↓reduceIte, ne_eq, not_false_eq_true, hw]
          rw [hf]
          refine ⟨rfl, ?_⟩
          apply issued_of_log
          simp only [Outcome.state]
          rw [hl, hlog]; simp
        | ret v s2 =>
          right
          rw [hw] at hl hz
          simp only [Outcome.state] at hl
          have hf : fork L s = forkFinish L (s.script s.ncalls) s2 := by
            unfold fork
            simp only [hfst, h1, h0, ↓reduceIte, ne_eq, not_false_eq_true, hw]
          rw [hf]
          refine ⟨hz rfl, (s2.envs (s2.thisenv s2.curenv)).env_pgfault_upcall, s2.script s2.ncalls, s2.script (s2.ncalls + 1),
            s2.script (s2.ncalls + 2), ?_, forkFinish_val L _ s2⟩
          apply issued_of_log
          rw [forkFinish_log, hl, hlog]; simp

theorem isSetStatus_of_page_map {x : Call × Int} {cur : Int}
    (h : ∃ va dst perm, x.1 = Call.page_map cur va dst va perm) :
    x.1.isSetStatus = false ∧ x.1 ≠ Call.exofork := by
  obtain ⟨va, dst, perm, hx⟩ := h
  rw [hx]
  exact ⟨rfl, by simp⟩

/-- C6: among the kernel calls `fork` makes, a set-status call can only be the
last one (so there is at most one); when it is made it marks the child runnable,
every call before it other than the create-process call (the page-map calls of
`duppage`, the set-fault-upcall call, the exception-stack allocation) was
answered 0, and the last two are among them.  When one of those calls fails,
`fork` aborts without any set-status call; and whenever `fork` aborts, no
set-status call has succeeded. -/
theorem fork_set_status_last (L : Layout) (s : Machine) :
    (∀ x ∈ (issued s (fork L s)).dropLast, x.1.isSetStatus = false) ∧
    (∀ x ∈ issued s (fork L s), x.1.isSetStatus = true →
      x.1 = Call.env_set_status (s.script s.ncalls) ENV_RUNNABLE ∧
      (∀ y ∈ (issued s (fork L s)).dropLast, y.1 ≠ Call.exofork → y.2 = 0) ∧
      (∃ up, (Call.env_set_pgfault_upcall (s.script s.ncalls) up, 0) ∈
          (issued s (fork L s)).dropLast) ∧
      (Call.page_alloc (s.script s.ncalls) (L.UXSTACKTOP - PGSIZE)
          (PTE_U ||| PTE_P ||| PTE_W), 0) ∈ (issued s (fork L s)).dropLast) ∧
    (∀ y ∈ issued s (fork L s), y.1 ≠ Call.exofork → y.1.isSetStatus = false → y.2 ≠ 0 →
      (fork L s).val = none ∧ ∀ x ∈ issued s (fork L s), x.1.isSetStatus = false) ∧
    ((fork L s).val = none →
      ∀ x ∈ issued s (fork L s), x.1.isSetStatus = true → x.2 ≠ 0) := by
  rcases fork_log L s with ⟨_, ht⟩ | ⟨_, _, w, hg, hcase⟩
  · rw [ht]
    simp [Call.isSetStatus]
  · have hw1 : ∀ x ∈ w, x.1.isSetStatus = false := fun x hx =>
      (isSetStatus_of_page_map (by
        obtain ⟨va, dst, perm, h, _⟩ := hg x hx; exact ⟨va, dst, perm, h⟩)).1
    rcases hcase with ⟨hv, ht⟩ | ⟨hz, up, r1, r2, r3, ht, hv⟩
    · rw [ht]
      have hall : ∀ x ∈ (Call.exofork, s.script s.ncalls) :: w, x.1.isSetStatus = false := by
        intro x hx
        rcases List.mem_cons.1 hx with rfl | h
        · rfl
        · exact hw1 x h
      refine ⟨fun x hx => hall x (List.mem_of_mem_dropLast hx), ?_, ?_, ?_⟩
      · intro x hx hs; rw [hall x hx] at hs; cases hs
      · intro y _ _ _ _; exact ⟨hv, hall⟩
      · intro _ x hx hs; rw [hall x hx] at hs; cases hs
    · rw [ht, hv]
      by_cases h1 : r1 = 0
      · by_cases h2 : r2 = 0
        · subst h1 h2
          have e : (Call.exofork, s.script s.ncalls) :: (w ++ finishCalls L (s.script s.ncalls) up 0 0 r3)
              = ((Call.exofork, s.script s.ncalls) :: (w ++
                  [(Call.env_set_pgfault_upcall (s.script s.ncalls) up, 0),
                   (Call.page_alloc (s.script s.ncalls) (L.UXSTACKTOP - PGSIZE)
                      (PTE_U ||| PTE_P ||| PTE_W), 0)])) ++
                [(Call.env_set_status (s.script s.ncalls) ENV_RUNNABLE, r3)] := by
            simp [finishCalls]
          rw [e, List.dropLast_concat]
          have hpre : ∀ x ∈ (Call.exofork, s.script s.ncalls) :: (w ++
                  [(Call.env_set_pgfault_upcall (s.script s.ncalls) up, 0),
                   (Call.page_alloc (s.script s.ncalls) (L.UXSTACKTOP - PGSIZE)
                      (PTE_U ||| PTE_P ||| PTE_W), 0)]),
              x.1.isSetStatus = false ∧ (x.1 ≠ Call.exofork → x.2 = 0) := by
            intro x hx
            simp only [List.mem_cons, List.mem_append, List.not_mem_nil, or_false] at hx
            rcases hx with rfl | h | rfl | rfl
            · exact ⟨rfl, fun h => absurd rfl h⟩
            · exact ⟨hw1 x h, fun _ => hz x h⟩
            · exact ⟨rfl, fun _ => rfl⟩
            · exact ⟨rfl, fun _ => rfl⟩
          refine ⟨fun x hx => (hpre x hx).1, ?_, ?_, ?_⟩
          · intro x hx hs
            rcases List.mem_append.1 hx with h | h
            · rw [(hpre x h).1] at hs; cases hs
            · rw [List.mem_singleton] at h
              subst h
              refine ⟨rfl, fun y hy => (hpre y hy).2, ⟨up, ?_⟩, ?_⟩
              · simp
              · simp
          · intro y hy hne hs hr
            rcases List.mem_append.1 hy with h | h
            · exact absurd ((hpre y h).2 hne) hr
            · rw [List.mem_singleton] at h
              subst h
              cases hs
          · intro hnone x hx hs
            rcases List.mem_append.1 hx with h | h
            · rw [(hpre x h).1] at hs; cases hs
            · rw [List.mem_singleton] at h
              subst h
              intro hr
              simp only [true_and] at hnone
              rw [if_pos hr] at hnone
              cases hnone
        · subst h1
          have hall : ∀ x ∈ (Call.exofork, s.script s.ncalls) ::
              (w ++ finishCalls L (s.script s.ncalls) up 0 r2 r3), x.1.isSetStatus = false := by
            intro x hx
            simp only [finishCalls, h2, ne_eq, not_true_eq_false, not_false_eq_true, ↓reduceIte,
              List.mem_cons, List.mem_append, List.not_mem_nil, or_false] at hx
            rcases hx with rfl | h | rfl | rfl
            · rfl
            · exact hw1 x h
            · rfl
            · rfl
          refine ⟨fun x hx => hall x (List.mem_of_mem_dropLast hx), ?_, ?_, ?_⟩
          · intro x hx hs; rw [hall x hx] at hs; cases hs
          · intro y _ _ _ _; exact ⟨by simp [h2], hall⟩
          · intro _ x hx hs; rw [hall x hx] at hs; cases hs
      · have hall : ∀ x ∈ (Call.exofork, s.script s.ncalls) ::
            (w ++ finishCalls L (s.script s.ncalls) up r1 r2 r3), x.1.isSetStatus = false := by
          intro x hx
          simp only [finishCalls, h1, ne_eq, not_false_eq_true, ↓reduceIte,
            List.mem_cons, List.mem_append, List.not_mem_nil, or_false] at hx
          rcases hx with rfl | h | rfl
          · rfl
          · exact hw1 x h
          · rfl
        refine ⟨fun x hx => hall x (List.mem_of_mem_dropLast hx), ?_, ?_, ?_⟩
        · intro x hx hs; rw [hall x hx] at hs; cases hs
        · intro y _ _ _ _; exact ⟨by simp [h1], hall⟩
        · intro _ x hx hs; rw [hall x hx] at hs; cases hs

/-! ## `pgfault` -/

/-- The handler returns exactly when its check passes and the kernel accepts the
allocation and the mapping. -/
theorem pgfault_val (L : Layout) (utf : UTrapframe) (s : Machine) :
    (pgfault L utf s).val =
      if (utf.utf_err &&& 2 ≠ 0 ∧ uvpt s (utf.utf_fault_va / PGSIZE) &&& PTE_COW ≠ 0) ∧
          s.script s.ncalls = 0 ∧ s.script (s.ncalls + 1) = 0
      then some () else none := by
  unfold pgfault
  simp only []
  by_cases hc : utf.utf_err &&& 2 ≠ 0 ∧ uvpt s (utf.utf_fault_va / PGSIZE) &&& PTE_COW ≠ 0
  · rw [if_neg (not_not.2 hc)]
    simp only [sys_page_alloc_fst, sys_page_map_fst, Machine.next]
    by_cases h1 : s.script s.ncalls = 0
    · by_cases h2 : s.script (s.ncalls + 1) = 0
      · simp [hc, h1, h2, Outcome.val, memmove, Machine.next]
      · simp [hc, h1, h2, Outcome.val, memmove, Machine.next]
    · simp [hc, h1, Outcome.val]
  · rw [if_pos hc]
    simp [hc, Outcome.val]

/-- C8, as the code has it: `pgfault` aborts at its check exactly when the fault
is not a write (mask 2 of the error code) to a page whose entry carries the
copy-on-write bit, and then it has made no kernel call and left the machine
as it was; past the check it still aborts when the kernel refuses the
allocation or the mapping, so it aborts in all exactly when the check fails or
one of the two answers is not 0. -/
theorem pgfault_abort_iff (L : Layout) (utf : UTrapframe) (s : Machine) :
    ((pgfault L utf s).diag = some Panic.pgfault_not_writable ↔
      ¬ (utf.utf_err &&& 2 ≠ 0 ∧ uvpt s (PGNUM utf.utf_fault_va) &&& PTE_COW ≠ 0)) ∧
    ((pgfault L utf s).diag = some Panic.pgfault_not_writable →
      (pgfault L utf s).state = s ∧ issued s (pgfault L utf s) = []) ∧
    ((pgfault L utf s).val = none ↔
      ¬ (utf.utf_err &&& 2 ≠ 0 ∧ uvpt s (PGNUM utf.utf_fault_va) &&& PTE_COW ≠ 0) ∨
      s.script s.ncalls ≠ 0 ∨ s.script (s.ncalls + 1) ≠ 0) := by
  have hpg : PGNUM utf.utf_fault_va = utf.utf_fault_va / PGSIZE := PGNUM_eq_div _
  rw [hpg]
  by_cases hc : utf.utf_err &&& 2 ≠ 0 ∧ uvpt s (utf.utf_fault_va / PGSIZE) &&& PTE_COW ≠ 0
  · have hd : (pgfault L utf s).diag ≠ some Panic.pgfault_not_writable := by
      unfold pgfault
      simp only []
      rw [if_neg (not_not.2 hc)]
      simp only [sys_page_alloc_fst, sys_page_map_fst]
      split
      · simp [Outcome.diag]
      · split <;> simp [Outcome.diag]
    refine ⟨⟨fun h => absurd h hd, fun h => absurd hc h⟩, fun h => absurd h hd, ?_⟩
    rw [pgfault_val, if_congr (and_iff_right hc) rfl rfl]
    by_cases h1 : s.script s.ncalls = 0
    · by_cases h2 : s.script (s.ncalls + 1) = 0
      · simp [hc, h1, h2]
      · simp [hc, h1, h2]
    · simp [hc, h1]
  · have he : pgfault L utf s = .panic .pgfault_not_writable s := by
      unfold pgfault
      simp only []
      rw [if_pos hc]
    rw [he]
    refine ⟨⟨fun _ => hc, fun _ => rfl⟩, fun _ => ⟨rfl, ?_⟩, ?_⟩
    · simp [issued, Outcome.state]
    · simp [Outcome.val, hc]

/-- C8, counterexample to the claim as stated: the fault is a write to a
copy-on-write page, the kernel is out of memory, and `pgfault` aborts after
having made the page-allocation call. -/
theorem pgfault_abort_after_alloc :
    ((7 : Nat) &&& 2 ≠ 0 ∧
      uvpt (machineOf cowEnv scriptNoMem) (PGNUM 0x801234) &&& PTE_COW ≠ 0) ∧
    (pgfault josLayout ⟨0x801234, 7⟩ (machineOf cowEnv scriptNoMem)).diag =
      some (Panic.pgfault_page_alloc (-4)) ∧
    issued (machineOf cowEnv scriptNoMem)
        (pgfault josLayout ⟨0x801234, 7⟩ (machineOf cowEnv scriptNoMem)) =
      [(Call.page_alloc 4096 0x7ff000 7, -4)] := by
  decide!

/-! ## `sfork` -/

/-- C10, as the code has it: in every state `sfork` aborts with the diagnostic
"sfork not implemented" before its `return -E_INVAL` is reached; it makes no
kernel call and leaves the machine as it was. -/
theorem sfork_panics (s : Machine) :
    (sfork s).diag = some Panic.sfork_not_implemented ∧ (sfork s).val = none ∧
    (sfork s).state = s ∧ issued s (sfork s) = [] := by
  refine ⟨rfl, rfl, rfl, ?_⟩
  simp [issued, sfork, Outcome.state]

/-- C10, counterexample to the claim as stated: `sfork` does not yield -E_INVAL. -/
theorem sfork_not_einval : (sfork (machineOf demoEnv scriptOk)).val ≠ some (-E_INVAL) := by
  decide

/-! ## Permission bits -/

theorem land_PGOFF (x b : Nat) (hb : 0xFFF &&& b = b) : x &&& b = PGOFF x &&& b := by
  unfold PGOFF
  rw [Nat.and_assoc, hb]

theorem mkPte_land (f p b : Nat) (hp : p < 4096) (hb : 0xFFF &&& b = b) :
    mkPte f p &&& b = p &&& b := by
  rw [land_PGOFF _ b hb, PGOFF_mkPte, Nat.mod_eq_of_lt hp]

theorem land_ne_zero_of_sub (x a b : Nat) (hab : a &&& b = b) (h : x &&& b ≠ 0) :
    x &&& a ≠ 0 := by
  intro h0
  apply h
  rw [← hab, ← Nat.and_assoc, h0]
  exact Nat.zero_and _

theorem dupFlags_W (e : Nat) : dupFlags e &&& PTE_W = 0 := by
  unfold dupFlags
  split
  · decide
  · rename_i h
    rw [← land_PGOFF e PTE_W (by decide)]
    by_contra hc
    exact h (Or.inl hc)

theorem dupFlags_P (e : Nat) (h : e &&& PTE_P ≠ 0) : dupFlags e &&& PTE_P ≠ 0 := by
  unfold dupFlags
  split
  · decide
  · rw [← land_PGOFF e PTE_P (by decide)]; exact h

theorem dupFlags_U (e : Nat) (h : e &&& PTE_U ≠ 0) : dupFlags e &&& PTE_U ≠ 0 := by
  unfold dupFlags
  split
  · decide
  · rw [← land_PGOFF e PTE_U (by decide)]; exact h

theorem dupFlags_COW_of (e : Nat) (h : dupFlags e &&& PTE_COW ≠ 0) :
    dupFlags e = PTE_P ||| PTE_COW ||| PTE_U := by
  unfold dupFlags at h ⊢
  split
  · rfl
  · rename_i hn
    rw [if_neg hn, ← land_PGOFF e PTE_COW (by decide)] at h
    exact absurd (Or.inr h) hn

theorem PGNUM_dupPte (e : Nat) : PGNUM (dupPte e) = PGNUM e := PGNUM_mkPte _ _

theorem PGOFF_dupPte (e : Nat) : PGOFF (dupPte e) = dupFlags e := by
  unfold dupPte
  rw [PGOFF_mkPte, Nat.mod_eq_of_lt (dupFlags_lt e)]

theorem dupPte_land (e b : Nat) (hb : 0xFFF &&& b = b) : dupPte e &&& b = dupFlags e &&& b :=
  mkPte_land _ _ _ (dupFlags_lt e) hb

/-- Under a well-formed layout the pages below `UTOP` are the pages the walk
reaches. -/
theorem below_UTOP_iff (L : Layout) (hL : L.WF) (pn : Nat) :
    pn * PGSIZE < L.UTOP ↔ pn < PDX L.UTOP * NPTENTRIES := by
  obtain ⟨h1, h2, _⟩ := hL
  have hpdx : PDX L.UTOP = L.UTOP / 4194304 := by
    unfold PDX
    rw [Nat.shiftRight_eq_div_pow, Nat.and_pow_two_sub_one_eq_mod _ 10]
    apply Nat.mod_eq_of_lt
    omega
  rw [hpdx]
  unfold PGSIZE NPTENTRIES at *
  omega

/-- The frames of a forked machine have all been handed out. -/
theorem ForkPost.wf {L : Layout} {s s1 : Machine} {cpid : Int}
    (h : ForkPost L s cpid s1) (hwf : s.WF) : s1.WF := by
  intro e pn
  rw [h.nextFrame]
  by_cases hc : e = cpid
  · subst hc
    rw [h.child pn]
    split
    · rw [PGNUM_mkPte]; omega
    · split
      · rw [PGNUM_dupPte]; exact Nat.lt_succ_of_lt (hwf _ _)
      · have : PGNUM 0 = 0 := by decide
        rw [this]; omega
  · by_cases hp : e = s.curenv
    · subst hp
      rw [h.parent pn]
      split
      · rw [PGNUM_dupPte]; exact Nat.lt_succ_of_lt (hwf _ _)
      · exact Nat.lt_succ_of_lt (hwf _ _)
    · rw [h.others e hp hc]
      exact Nat.lt_succ_of_lt (hwf _ _)

theorem finishCalls_isPageMap (L : Layout) (cpid : Int) (up : Nat) (r1 r2 r3 : Int)
    (x : Call × Int) (hx : x ∈ finishCalls L cpid up r1 r2 r3) : x.1.isPageMap = false := by
  unfold finishCalls at hx
  split at hx
  · simp only [List.mem_singleton] at hx; subst hx; rfl
  · split at hx
    · simp only [List.mem_cons, List.mem_singleton, List.not_mem_nil, or_false] at hx
      rcases hx with rfl | rfl <;> rfl
    · simp only [List.mem_cons, List.mem_singleton, List.not_mem_nil, or_false] at hx
      rcases hx with rfl | rfl | rfl <;> rfl

/-- Every page-map call of `fork` comes from the walk: it is made by the parent,
keeps the address, and is not for the exception stack page. -/
theorem fork_page_maps (L : Layout) (s : Machine) (x : Call × Int)
    (hx : x ∈ issued s (fork L s)) (hm : x.1.isPageMap = true) :
    ∃ va dst perm, x.1 = Call.page_map s.curenv va dst va perm ∧ PGNUM va ≠ xstackPage L := by
  rcases fork_log L s with ⟨_, ht⟩ | ⟨_, _, w, hg, hcase⟩
  · rw [ht, List.mem_singleton] at hx
    subst hx; cases hm
  · rcases hcase with ⟨_, ht⟩ | ⟨_, up, r1, r2, r3, ht, _⟩
    · rw [ht] at hx
      rcases List.mem_cons.1 hx with rfl | h
      · cases hm
      · exact hg x h
    · rw [ht] at hx
      rcases List.mem_cons.1 hx with rfl | h
      · cases hm
      · rcases List.mem_append.1 h with h | h
        · exact hg x h
        · rw [finishCalls_isPageMap L _ up r1 r2 r3 x h] at hm; cases hm

/-- C5: `fork` never hands the exception stack page to `duppage` (none of its
page-map calls is for that page), and after a `fork` that returned the child's
id to the parent, the parent's entry for that page is what it was, while the
child's entry is the frame the allocator handed out, a frame behind no entry of
any environment before and behind no entry of the parent after, with permission
Present, User, Writable and without the copy-on-write bit. -/
theorem fork_exception_stack (L : Layout) (s : Machine) :
    (∀ x ∈ issued s (fork L s), ∀ src va dst dva perm,
      x.1 = Call.page_map src va dst dva perm →
        PGNUM va ≠ xstackPage L ∧ PGNUM dva ≠ xstackPage L) ∧
    (∀ cpid, (fork L s).val = some cpid → 0 < cpid → cpid ≠ s.curenv → s.WF →
      ((fork L s).state.envs s.curenv).env_pgtbl (xstackPage L) = uvpt s (xstackPage L) ∧
      PGOFF (((fork L s).state.envs cpid).env_pgtbl (xstackPage L)) =
        PTE_P ||| PTE_U ||| PTE_W ∧
      ((fork L s).state.envs cpid).env_pgtbl (xstackPage L) &&& PTE_COW = 0 ∧
      PGNUM (((fork L s).state.envs cpid).env_pgtbl (xstackPage L)) = s.nextFrame ∧
      (∀ e pn, PGNUM ((s.envs e).env_pgtbl pn) ≠
        PGNUM (((fork L s).state.envs cpid).env_pgtbl (xstackPage L))) ∧
      (∀ pn, PGNUM (((fork L s).state.envs s.curenv).env_pgtbl pn) ≠
        PGNUM (((fork L s).state.envs cpid).env_pgtbl (xstackPage L)))) := by
  constructor
  · intro x hx src va dst dva perm he
    obtain ⟨va', dst', perm', he', hne⟩ := fork_page_maps L s x hx (by rw [he]; rfl)
    rw [he] at he'
    cases he'
    exact ⟨hne, hne⟩
  · intro cpid h hpos hne hwf
    have hp := fork_post L s cpid h hpos hne
    have hc : ((fork L s).state.envs cpid).env_pgtbl (xstackPage L) =
        mkPte s.nextFrame (PTE_U ||| PTE_P ||| PTE_W) := by
      rw [hp.child]; simp
    rw [hc, PGNUM_mkPte, PGOFF_mkPte]
    refine ⟨?_, by decide, ?_, rfl, ?_, ?_⟩
    · rw [hp.parent]
      have : ¬ walkTest L s (xstackPage L) := fun ht => ht.2.2 rfl
      simp [this]
    · rw [mkPte_land _ _ _ (by decide) (by decide)]; decide
    · intro e pn; exact Nat.ne_of_lt (hwf e pn)
    · intro pn
      rw [hp.parent]
      split
      · rw [PGNUM_dupPte]; exact Nat.ne_of_lt (hwf _ _)
      · exact Nat.ne_of_lt (hwf _ _)

/-- C4: after a `fork` that returned the child's id to the parent, a page the
child maps to the frame the parent has at the same address carries the same
permission bits in both, with the write bit clear in both; no entry of the
child, and no entry of the parent that `fork` changed, has both the
copy-on-write bit and the write bit. -/
theorem fork_shared_not_writable (L : Layout) (s : Machine) (cpid : Int) (pn : Nat)
    (hwf : s.WF) (h : (fork L s).val = some cpid) (hpos : 0 < cpid) (hne : cpid ≠ s.curenv) :
    (((fork L s).state.envs cpid).env_pgtbl pn &&& PTE_P ≠ 0 →
      PGNUM (((fork L s).state.envs cpid).env_pgtbl pn) =
        PGNUM (((fork L s).state.envs s.curenv).env_pgtbl pn) →
      PGOFF (((fork L s).state.envs cpid).env_pgtbl pn) =
        PGOFF (((fork L s).state.envs s.curenv).env_pgtbl pn) ∧
      ((fork L s).state.envs cpid).env_pgtbl pn &&& PTE_W = 0 ∧
      ((fork L s).state.envs s.curenv).env_pgtbl pn &&& PTE_W = 0) ∧
    ¬ (((fork L s).state.envs cpid).env_pgtbl pn &&& PTE_COW ≠ 0 ∧
        ((fork L s).state.envs cpid).env_pgtbl pn &&& PTE_W ≠ 0) ∧
    (((fork L s).state.envs s.curenv).env_pgtbl pn ≠ uvpt s pn →
      ¬ (((fork L s).state.envs s.curenv).env_pgtbl pn &&& PTE_COW ≠ 0 ∧
        ((fork L s).state.envs s.curenv).env_pgtbl pn &&& PTE_W ≠ 0)) := by
  have hp := fork_post L s cpid h hpos hne
  have hdW : dupPte (uvpt s pn) &&& PTE_W = 0 := by
    rw [dupPte_land _ _ (by decide)]; exact dupFlags_W _
  rw [hp.child pn, hp.parent pn]
  by_cases hx : pn = xstackPage L
  · have hnt : ¬ walkTest L s pn := fun ht => ht.2.2 hx
    simp only [hx, ↓reduceIte, hnt, and_false, ne_eq, not_true_eq_false, false_implies,
      and_true, if_false]
    subst hx
    have hnt' : ¬ walkTest L s (xstackPage L) := hnt
    simp only [hnt', and_false, ↓reduceIte, ne_eq, not_true_eq_false, false_implies, and_true]
    constructor
    · intro _ hf
      rw [PGNUM_mkPte] at hf
      exact absurd hf.symm (Nat.ne_of_lt (hwf _ _))
    · rw [mkPte_land _ _ _ (by decide) (by decide)]
      intro hc; exact hc.1 (by decide)
  · simp only [hx, ↓reduceIte]
    by_cases hw : pn < PDX L.UTOP * NPTENTRIES ∧ walkTest L s pn
    · simp only [hw, and_self, ↓reduceIte, hdW, ne_eq, not_true_eq_false, and_false,
        not_false_eq_true, implies_true, and_true]
    · simp only [hw, ↓reduceIte, ne_eq, not_true_eq_false, false_implies, and_true]
      simp

/-- C3, as the code has it: after a `fork` that returned the child's id to the
parent, every page below `UTOP` other than the exception stack page that was
present and user-accessible in the parent (its page table present too) is
mapped, present and user-accessible, in the child, and the child sees there
the very contents the parent sees after `fork`, which are those the parent
had when it called `fork`. -/
theorem fork_child_sees_parent_pages (L : Layout) (s : Machine) (cpid : Int) (pn : Nat)
    (hL : L.WF) (h : (fork L s).val = some cpid) (hpos : 0 < cpid) (hne : cpid ≠ s.curenv)
    (hb : pn * PGSIZE < L.UTOP) (hx : pn ≠ xstackPage L)
    (hd : uvpd s (pn / NPTENTRIES) &&& PTE_P ≠ 0)
    (hp : uvpt s pn &&& PTE_P ≠ 0) (hu : uvpt s pn &&& PTE_U ≠ 0) :
    (((fork L s).state.envs cpid).env_pgdir (pn / NPTENTRIES) &&& PTE_P ≠ 0 ∧
      ((fork L s).state.envs cpid).env_pgtbl pn &&& PTE_P ≠ 0 ∧
      ((fork L s).state.envs cpid).env_pgtbl pn &&& PTE_U ≠ 0) ∧
    pageOf (fork L s).state cpid pn = pageOf (fork L s).state s.curenv pn ∧
    pageOf (fork L s).state cpid pn = pageOf s s.curenv pn := by
  have hpost := fork_post L s cpid h hpos hne
  have hw : pn < PDX L.UTOP * NPTENTRIES ∧ walkTest L s pn :=
    ⟨(below_UTOP_iff L hL pn).1 hb,
      hd, land_ne_zero_of_sub _ _ _ (by decide) hp, hx⟩
  have hc : ((fork L s).state.envs cpid).env_pgtbl pn = dupPte (uvpt s pn) := by
    rw [hpost.child pn, if_neg hx, if_pos hw]
  have hpe : ((fork L s).state.envs s.curenv).env_pgtbl pn = dupPte (uvpt s pn) := by
    rw [hpost.parent pn, if_pos hw]
  refine ⟨⟨hpost.childDir pn (Or.inr hw), ?_, ?_⟩, ?_, ?_⟩
  · rw [hc, dupPte_land _ _ (by decide)]; exact dupFlags_P _ hp
  · rw [hc, dupPte_land _ _ (by decide)]; exact dupFlags_U _ hu
  · unfold pageOf; rw [hc, hpe]
  · unfold pageOf; rw [hc, hpost.mem, PGNUM_dupPte]; rfl

/-! ## The concrete machines -/

theorem josLayout_WF : josLayout.WF := by
  unfold Layout.WF josLayout PGSIZE NPTENTRIES
  decide

theorem machineOf_demoEnv_WF (script : Nat → Int) : (machineOf demoEnv script).WF := by
  intro e pn
  show PGNUM ((if e = 4096 then demoEnv else emptyEnv).env_pgtbl pn) < 8
  rw [PGNUM_eq_div]
  split
  · show (if pn = 2048 then 7 * 4096 + 5 else if pn = 2049 then 5 * 4096 + 7
      else if pn = 977919 then 6 * 4096 + 7 else 0) / 4096 < 8
    split
    · decide
    · split
      · decide
      · split <;> decide
  · show 0 / 4096 < 8
    decide

/-- C1, at a concrete input: duplicating the writable data page of the demo
image into environment 0x1001. -/
theorem duppage_installs_witness :
    (duppage 4097 2049 (machineOf demoEnv (fun _ => 0))).1 = 0 ∧
    PGOFF (((duppage 4097 2049 (machineOf demoEnv (fun _ => 0))).2.envs 4097).env_pgtbl 2049) =
      (if uvpt (machineOf demoEnv (fun _ => 0)) 2049 &&& PTE_W ≠ 0 ∨
          uvpt (machineOf demoEnv (fun _ => 0)) 2049 &&& PTE_COW ≠ 0
        then PTE_P ||| PTE_U ||| PTE_COW
        else PGOFF (uvpt (machineOf demoEnv (fun _ => 0)) 2049)) :=
  have h := duppage_installs (machineOf demoEnv (fun _ => 0)) 4097 2049
    (by decide) rfl rfl
  ⟨h.1, h.2.2.2.1⟩

/-- C3, counterexample to the claim as stated: the exception stack page is
present and user-accessible in the parent, `fork` succeeds, and the child does
not see the parent's contents there. -/
theorem fork_child_exception_stack_differs :
    (fork josLayout (machineOf demoEnv scriptOk)).val = some 4097 ∧
    uvpd (machineOf demoEnv scriptOk) (977919 / NPTENTRIES) &&& PTE_P ≠ 0 ∧
    uvpt (machineOf demoEnv scriptOk) 977919 &&& PTE_P ≠ 0 ∧
    uvpt (machineOf demoEnv scriptOk) 977919 &&& PTE_U ≠ 0 ∧
    pageOf (fork josLayout (machineOf demoEnv scriptOk)).state 4097 977919 0 ≠
      pageOf (fork josLayout (machineOf demoEnv scriptOk)).state 4096 977919 0 := by
  decide!

/-- C3, at a concrete input: the data page of the demo image after `fork`. -/
theorem fork_child_sees_parent_pages_witness :
    pageOf (fork josLayout (machineOf demoEnv scriptOk)).state 4097 2049 =
      pageOf (machineOf demoEnv scriptOk) 4096 2049 :=
  (fork_child_sees_parent_pages josLayout (machineOf demoEnv scriptOk) 4097 2049
    josLayout_WF (by decide!) (by decide) (by decide) (by decide) (by decide)
    (by decide) (by decide) (by decide)).2.2

/-- C4, at a concrete input: the data page of the demo image after `fork`. -/
theorem fork_shared_not_writable_witness :
    ¬ (((fork josLayout (machineOf demoEnv scriptOk)).state.envs 4097).env_pgtbl 2049
          &&& PTE_COW ≠ 0 ∧
        ((fork josLayout (machineOf demoEnv scriptOk)).state.envs 4097).env_pgtbl 2049
          &&& PTE_W ≠ 0) :=
  (fork_shared_not_writable josLayout (machineOf demoEnv scriptOk) 4097 2049
    (machineOf_demoEnv_WF scriptOk) (by decide!) (by decide) (by decide)).2.1

/-- C5, at a concrete input: the exception stack page of the demo image after `fork`. -/
theorem fork_exception_stack_witness :
    PGNUM (((fork josLayout (machineOf demoEnv scriptOk)).state.envs 4097).env_pgtbl
      (xstackPage josLayout)) = 8 :=
  ((fork_exception_stack josLayout (machineOf demoEnv scriptOk)).2 4097
    (by decide!) (by decide) (by decide) (machineOf_demoEnv_WF scriptOk)).2.2.2.1

/-- C6, at a concrete input: the calls of `fork` on the demo image. -/
theorem fork_set_status_last_witness :
    issued (machineOf demoEnv scriptOk) (fork josLayout (machineOf demoEnv scriptOk)) =
      [(Call.exofork, 4097),
       (Call.page_map 4096 0x800000 4097 0x800000 5, 0),
       (Call.page_map 4096 0x800000 4096 0x800000 5, 0),
       (Call.page_map 4096 0x801000 4097 0x801000 0x805, 0),
       (Call.page_map 4096 0x801000 4096 0x801000 0x805, 0),
       (Call.env_set_pgfault_upcall 4097 0x800100, 0),
       (Call.page_alloc 4097 0xeebff000 7, 0),
       (Call.env_set_status 4097 2, 0)] ∧
    ∀ x ∈ (issued (machineOf demoEnv scriptOk)
        (fork josLayout (machineOf demoEnv scriptOk))).dropLast, x.1.isSetStatus = false :=
  ⟨by decide!, (fork_set_status_last josLayout (machineOf demoEnv scriptOk)).1⟩

/-- C7, the failing input evaluated: the image has a present page at 0x802000
without the user bit, and the walk of `fork` still hands it to `duppage`, whose
page-map call the kernel rejects. -/
theorem fork_walks_supervisor_page :
    uvpt (machineOf supervisorEnv scriptRejectFifth) 2050 &&& PTE_P ≠ 0 ∧
    uvpt (machineOf supervisorEnv scriptRejectFifth) 2050 &&& PTE_U = 0 ∧
    (Call.page_map 4096 0x802000 4097 0x802000 1, -3) ∈
      issued (machineOf supervisorEnv scriptRejectFifth)
        (fork josLayout (machineOf supervisorEnv scriptRejectFifth)) ∧
    (fork josLayout (machineOf supervisorEnv scriptRejectFifth)).diag =
      some (Panic.duppage (-3)) := by
  decide!

/-- C9, the failing input evaluated: the create-process call fails with
-E_NO_FREE_ENV, `fork` does not stop there but starts the walk and makes a
page-map call naming the environment -5, and only aborts when that call fails. -/
theorem fork_exofork_failure_walks :
    issued (machineOf demoEnv scriptNoFreeEnv)
        (fork josLayout (machineOf demoEnv scriptNoFreeEnv)) =
      [(Call.exofork, -5), (Call.page_map 4096 0x800000 (-5) 0x800000 5, -2)] ∧
    (fork josLayout (machineOf demoEnv scriptNoFreeEnv)).diag =
      some (Panic.duppage (-2)) := by
  decide!

/-! ## A copy-on-write fault that is served -/

theorem PGNUM_ROUNDDOWN (va : Nat) : PGNUM (ROUNDDOWN va PGSIZE) = va / PGSIZE := by
  rw [PGNUM_eq_div]; unfold ROUNDDOWN PGSIZE; omega

theorem PGNUM_ROUNDDOWN_add (va off : Nat) (h : off < PGSIZE) :
    PGNUM (ROUNDDOWN va PGSIZE + off) = va / PGSIZE := by
  rw [PGNUM_eq_div]; unfold ROUNDDOWN PGSIZE at *; omega

theorem PGOFF_ROUNDDOWN_add (va off : Nat) (h : off < PGSIZE) :
    PGOFF (ROUNDDOWN va PGSIZE + off) = off := by
  rw [PGOFF_eq_mod]; unfold ROUNDDOWN PGSIZE at *; omega

section served
variable (L : Layout) (utf : UTrapframe) (s : Machine)
  (h : (pgfault L utf s).val = some ())
include h

theorem pgfault_served :
    (utf.utf_err &&& 2 ≠ 0 ∧ uvpt s (utf.utf_fault_va / PGSIZE) &&& PTE_COW ≠ 0) ∧
      s.script s.ncalls = 0 ∧ s.script (s.ncalls + 1) = 0 := by
  rw [pgfault_val] at h
  by_contra hc
  rw [if_neg hc] at h
  cases h

theorem pgfault_curenv : (pgfault L utf s).state.curenv = s.curenv := by
  obtain ⟨hc, h1, h2⟩ := pgfault_served L utf s h
  unfold pgfault
  simp [hc, h1, h2, Machine.next, Outcome.state, memmove, sys_getenvid]

theorem pgfault_nextFrame : (pgfault L utf s).state.nextFrame = s.nextFrame + 1 := by
  obtain ⟨hc, h1, h2⟩ := pgfault_served L utf s h
  unfold pgfault
  simp [hc, h1, h2, Machine.next, Outcome.state, memmove, sys_getenvid, sys_page_alloc_nextFrame]

theorem pgfault_envs :
    (pgfault L utf s).state.envs =
      install
        (install s.envs s.curenv (PGNUM L.PFTEMP)
          (mkPte s.nextFrame (PTE_W ||| PTE_P ||| PTE_U)))
        s.curenv (utf.utf_fault_va / PGSIZE)
        (mkPte s.nextFrame (PTE_W ||| PTE_P ||| PTE_U)) := by
  obtain ⟨hc, h1, h2⟩ := pgfault_served L utf s h
  unfold pgfault
  simp [hc, h1, h2, Machine.next, Outcome.state, memmove, sys_getenvid, sys_page_alloc_envs,
    sys_page_map_envs, PGNUM_ROUNDDOWN, install_pgtbl, PGNUM_mkPte]

theorem pgfault_mem (f off : Nat) :
    (pgfault L utf s).state.mem f off =
      if f = s.nextFrame ∧ PGOFF L.PFTEMP ≤ off ∧ off < PGOFF L.PFTEMP + PGSIZE then
        s.mem
          (PGNUM ((install s.envs s.curenv (PGNUM L.PFTEMP)
              (mkPte s.nextFrame (PTE_W ||| PTE_P ||| PTE_U)) s.curenv).env_pgtbl
            (PGNUM (ROUNDDOWN utf.utf_fault_va PGSIZE + (off - PGOFF L.PFTEMP)))))
          (PGOFF (ROUNDDOWN utf.utf_fault_va PGSIZE + (off - PGOFF L.PFTEMP)))
      else s.mem f off := by
  obtain ⟨hc, h1, h2⟩ := pgfault_served L utf s h
  have hc' := hc.2
  unfold uvpt at hc'
  unfold pgfault
  simp [hc.1, hc', h1, h2, Machine.next, Outcome.state, memmove, sys_getenvid,
    sys_page_alloc_envs, frameAt, readByte, uvpt, install_pgtbl, PGNUM_mkPte]

end served

/-- What a served fault leaves in an environment other than the faulting one. -/
theorem pgfault_other (L : Layout) (utf : UTrapframe) (s : Machine)
    (h : (pgfault L utf s).val = some ()) (e : Int) (he : e ≠ s.curenv) :
    (pgfault L utf s).state.envs e = s.envs e := by
  rw [pgfault_envs L utf s h, install_other _ _ _ _ _ he, install_other _ _ _ _ _ he]

/-- The entry a served fault leaves at the faulting page. -/
theorem pgfault_entry (L : Layout) (utf : UTrapframe) (s : Machine)
    (h : (pgfault L utf s).val = some ()) :
    uvpt (pgfault L utf s).state (utf.utf_fault_va / PGSIZE) =
      mkPte s.nextFrame (PTE_W ||| PTE_P ||| PTE_U) := by
  unfold uvpt
  rw [pgfault_curenv L utf s h, pgfault_envs L utf s h, install_pgtbl_same]

/-- Frames handed out before a served fault keep their contents. -/
theorem pgfault_mem_old (L : Layout) (utf : UTrapframe) (s : Machine)
    (h : (pgfault L utf s).val = some ()) (f : Nat) (hf : f ≠ s.nextFrame) :
    (pgfault L utf s).state.mem f = s.mem f := by
  funext off
  rw [pgfault_mem L utf s h, if_neg (fun hc => hf hc.1)]

/-- The new frame holds a copy of the faulting page, unless the faulting page is
the scratch page itself. -/
theorem pgfault_mem_new (L : Layout) (utf : UTrapframe) (s : Machine)
    (h : (pgfault L utf s).val = some ()) (hL : L.WF)
    (hT : utf.utf_fault_va / PGSIZE ≠ PGNUM L.PFTEMP) (off : Nat) (ho : off < PGSIZE) :
    (pgfault L utf s).state.mem s.nextFrame off =
      s.mem (PGNUM (uvpt s (utf.utf_fault_va / PGSIZE))) off := by
  have h0 : PGOFF L.PFTEMP = 0 := by
    rw [PGOFF_eq_mod]
    have := hL.2.2
    unfold PGSIZE at this
    exact this
  rw [pgfault_mem L utf s h, h0]
  simp only [Nat.zero_le, Nat.zero_add, true_and, ho, and_self, ↓reduceIte, Nat.sub_zero]
  rw [PGNUM_ROUNDDOWN_add _ _ ho, PGOFF_ROUNDDOWN_add _ _ ho, install_pgtbl]
  simp only [hT, and_false, ↓reduceIte]
  rfl

theorem pageOf_congr (s t : Machine) (e : Int) (pn : Nat)
    (henv : t.envs e = s.envs e)
    (hmem : t.mem (PGNUM ((s.envs e).env_pgtbl pn)) = s.mem (PGNUM ((s.envs e).env_pgtbl pn))) :
    pageOf t e pn = pageOf s e pn := by
  unfold pageOf
  rw [henv, hmem]

/-- A store after a served fault goes to the new frame, so the pages of an
environment other than the faulting one look as before the fault. -/
theorem pageOf_after_fault (L : Layout) (utf : UTrapframe) (s : Machine) (v : Nat)
    (h : (pgfault L utf s).val = some ()) (hwf : s.WF) (e : Int) (he : e ≠ s.curenv)
    (pn : Nat) :
    pageOf (pokeByte utf.utf_fault_va v (pgfault L utf s).state) e pn = pageOf s e pn := by
  have hfr : frameAt (pgfault L utf s).state utf.utf_fault_va = s.nextFrame := by
    unfold frameAt
    have e1 : PGNUM utf.utf_fault_va = utf.utf_fault_va / PGSIZE := PGNUM_eq_div _
    rw [e1, pgfault_entry L utf s h, PGNUM_mkPte]
  have hlt := hwf e pn
  unfold pageOf pokeByte
  simp only [hfr]
  rw [pgfault_other L utf s h e he]
  funext off
  rw [if_neg (fun hc => Nat.ne_of_lt hlt hc.1), pgfault_mem_old L utf s h _ (Nat.ne_of_lt hlt)]

/-- After `fork` the contents of every page of the parent are as they were. -/
theorem fork_parent_pages (L : Layout) (s : Machine) (cpid : Int)
    (h : (fork L s).val = some cpid) (hpos : 0 < cpid) (hne : cpid ≠ s.curenv) (q : Nat) :
    pageOf (fork L s).state s.curenv q = pageOf s s.curenv q := by
  have hp := fork_post L s cpid h hpos hne
  unfold pageOf
  rw [hp.mem, hp.parent q]
  split
  · rw [PGNUM_dupPte]; rfl
  · rfl

/-- C2, as the code has it: after a `fork` that returned the child's id to the
parent, when the child's handler serves a write fault at an address va, the
child's entry for the page of va is a frame no environment had before, with
permission Present, User, Writable and without the copy-on-write bit; unless the
page is the handler's scratch page `PFTEMP`, that frame holds the contents the
parent had there when it called `fork`; after the store is retried the parent
still sees, at every page, the contents it had when it called `fork`, and the
child reads the value written.  And when the parent's handler serves a write
fault after `fork` and the store is retried, the child sees at every page what
it saw right after `fork`. -/
theorem cow_isolation (L : Layout) (s : Machine) (cpid : Int) (va v err : Nat)
    (hL : L.WF) (hwf : s.WF) (h : (fork L s).val = some cpid) (hpos : 0 < cpid)
    (hne : cpid ≠ s.curenv) :
    ((childFault L s cpid va err).val = some () →
      PGOFF (uvpt (childFault L s cpid va err).state (PGNUM va)) =
        PTE_P ||| PTE_U ||| PTE_W ∧
      uvpt (childFault L s cpid va err).state (PGNUM va) &&& PTE_COW = 0 ∧
      PGNUM (uvpt (childFault L s cpid va err).state (PGNUM va)) =
        (fork L s).state.nextFrame ∧
      (∀ e q, PGNUM (((fork L s).state.envs e).env_pgtbl q) ≠ (fork L s).state.nextFrame) ∧
      (PGNUM va ≠ PGNUM L.PFTEMP → ∀ off, off < PGSIZE →
        pageOf (childFault L s cpid va err).state cpid (PGNUM va) off =
          pageOf s s.curenv (PGNUM va) off) ∧
      (∀ q, pageOf (pokeByte va v (childFault L s cpid va err).state) s.curenv q =
        pageOf s s.curenv q) ∧
      readByte (pokeByte va v (childFault L s cpid va err).state) va = v) ∧
    ((parentFault L s va err).val = some () →
      ∀ q, pageOf (pokeByte va v (parentFault L s va err).state) cpid q =
        pageOf (fork L s).state cpid q) := by
  have hp := fork_post L s cpid h hpos hne
  have hwf1 : (fork L s).state.WF := hp.wf hwf
  have hpn : PGNUM va = va / PGSIZE := PGNUM_eq_div _
  constructor
  · intro hc
    unfold childFault at hc ⊢
    have hwfc : (runAs cpid (fork L s).state).WF := hwf1
    have hent := pgfault_entry L ⟨va, err⟩ (runAs cpid (fork L s).state) hc
    have hcur := pgfault_curenv L ⟨va, err⟩ (runAs cpid (fork L s).state) hc
    simp only [] at hent
    rw [← hpn] at hent
    have hnf : (runAs cpid (fork L s).state).nextFrame = (fork L s).state.nextFrame := rfl
    refine ⟨?_, ?_, ?_, ?_, ?_, ?_, ?_⟩
    · rw [hent, PGOFF_mkPte]; decide
    · rw [hent, mkPte_land _ _ _ (by decide) (by decide)]; decide
    · rw [hent, PGNUM_mkPte, hnf]
    · intro e q; exact Nat.ne_of_lt (hwf1 e q)
    · intro hT off ho
      have hserved := (pgfault_served L ⟨va, err⟩ (runAs cpid (fork L s).state) hc).1.2
      simp only [] at hserved
      rw [← hpn] at hserved
      have hce : ((fork L s).state.envs cpid).env_pgtbl (PGNUM va) = dupPte (uvpt s (PGNUM va)) := by
        have hcow : ((fork L s).state.envs cpid).env_pgtbl (PGNUM va) &&& PTE_COW ≠ 0 := hserved
        rw [hp.child (PGNUM va)] at hcow ⊢
        split
        · rename_i hx
          rw [if_pos hx, mkPte_land _ _ _ (by decide) (by decide)] at hcow
          exact absurd (by decide) hcow
        · rename_i hx
          rw [if_neg hx] at hcow
          split
          · rfl
          · rename_i hw
            rw [if_neg hw] at hcow
            exact absurd (by decide) hcow
      have hnew := pgfault_mem_new L ⟨va, err⟩ (runAs cpid (fork L s).state) hc hL
        (by simp only []; rw [← hpn]; exact hT) off ho
      simp only [] at hnew
      rw [← hpn] at hnew
      have e1 : pageOf (pgfault L ⟨va, err⟩ (runAs cpid (fork L s).state)).state cpid (PGNUM va) off =
          (pgfault L ⟨va, err⟩ (runAs cpid (fork L s).state)).state.mem
            (runAs cpid (fork L s).state).nextFrame off := by
        unfold pageOf
        have : ((pgfault L ⟨va, err⟩ (runAs cpid (fork L s).state)).state.envs cpid).env_pgtbl
            (PGNUM va) = mkPte (runAs cpid (fork L s).state).nextFrame (PTE_W ||| PTE_P ||| PTE_U) := by
          have := hent
          unfold uvpt at this
          rw [hcur] at this
          exact this
        rw [this, PGNUM_mkPte]
      rw [e1, hnew]
      show (fork L s).state.mem (PGNUM (((fork L s).state.envs cpid).env_pgtbl (PGNUM va))) off = _
      rw [hce, PGNUM_dupPte, hp.mem]
      rfl
    · intro q
      have := pageOf_after_fault L ⟨va, err⟩ (runAs cpid (fork L s).state) v hc hwfc s.curenv
        (fun e => hne e.symm) q
      simp only [] at this
      rw [this]
      exact fork_parent_pages L s cpid h hpos hne q
    · unfold readByte pokeByte frameAt uvpt
      simp
  · intro hc q
    unfold parentFault at hc ⊢
    have := pageOf_after_fault L ⟨va, err⟩ (fork L s).state v hc hwf1 cpid
      (by rw [hp.curenv]; exact hne) q
    simp only [] at this
    exact this

/-- C2, counterexample to the claim as stated: the scratch page `PFTEMP` is
writable in the parent, `fork` succeeds, the child's handler serves the child's
write fault on that page, and the page the child ends up with does not hold the
contents the parent had there. -/
theorem cow_scratch_page_loses_contents :
    (fork josLayout (machineOf scratchEnv scriptOk)).val = some 4097 ∧
    uvpt (machineOf scratchEnv scriptOk) (PGNUM 0x7ff000) &&& PTE_P ≠ 0 ∧
    uvpt (machineOf scratchEnv scriptOk) (PGNUM 0x7ff000) &&& PTE_U ≠ 0 ∧
    uvpt (machineOf scratchEnv scriptOk) (PGNUM 0x7ff000) &&& PTE_W ≠ 0 ∧
    (childFault josLayout (machineOf scratchEnv scriptOk) 4097 0x7ff000 7).val = some () ∧
    pageOf (childFault josLayout (machineOf scratchEnv scriptOk) 4097 0x7ff000 7).state 4097
        (PGNUM 0x7ff000) 0 ≠
      pageOf (machineOf scratchEnv scriptOk) 4096 (PGNUM 0x7ff000) 0 := by
  decide!

/-- C2, at a concrete input: the child of the demo image writes the byte 66 into
the data page. -/
theorem cow_isolation_witness :
    (∀ off, off < PGSIZE →
      pageOf (childFault josLayout (machineOf demoEnv scriptOk) 4097 0x801004 7).state 4097
          (PGNUM 0x801004) off =
        pageOf (machineOf demoEnv scriptOk) 4096 (PGNUM 0x801004) off) ∧
    (∀ q, pageOf (pokeByte 0x801004 66
          (childFault josLayout (machineOf demoEnv scriptOk) 4097 0x801004 7).state) 4096 q =
        pageOf (machineOf demoEnv scriptOk) 4096 q) ∧
    readByte (pokeByte 0x801004 66
        (childFault josLayout (machineOf demoEnv scriptOk) 4097 0x801004 7).state) 0x801004 = 66 :=
  have h := (cow_isolation josLayout (machineOf demoEnv scriptOk) 4097 0x801004 66 7
    josLayout_WF (machineOf_demoEnv_WF scriptOk) (by decide!) (by decide) (by decide)).1
    (by decide!)
  ⟨h.2.2.2.2.1 (by decide), h.2.2.2.2.2.1, h.2.2.2.2.2.2⟩

end Jos
